import Mathlib

/-!
Verification development for `build.py`, a package build/install orchestrator
for a hierarchical environment-module ecosystem.

The Python source is shallowly embedded: pure computations become Lean
functions, the mutable state threaded by the orchestrator (the filesystem
existence set, the shell-invocation log, the `rext_deps` dictionary and the
five axis variables of `install_version`) becomes explicit state passing, and
exceptions (`raise`, `exit(1)`, Python `IndexError`/`AttributeError`) become
an `Except` monad.  External collaborators (the build shell, download and
archive extraction) are parameters of a `World` structure.

Modelling conventions, noted once here:
* Python dicts are association lists (`PyDict`); only lookup (`dget`) and
  key-update (`dset`, in-place overwrite as in Python) are used, so the
  (unspecified, Python 2) iteration order of a dict never matters.
* `os.path.join` is modelled by `pjoin` for the POSIX relative-component
  cases exercised by the source.
* The filesystem is the list of paths known to exist; `os.makedirs` /
  file creation add a path if absent, `shutil.rmtree` removes a path and
  everything below it.  Files created under the download/extract scratch
  area are not tracked (nothing in the source ever queries them except the
  download cache itself).
* Console printing is not modelled.
-/



deriving instance DecidableEq for Except

/-- The fixed axis-module names (`modules` in the source). -/
def modulesList : List String := ["Compiler", "MPI", "Boost", "CUDA", "Python"]

/-- The fixed architecture list (`architectures` in the source). -/
def architecturesList : List String := ["x86_64"]

/-- A Python dict with string keys, as an association list. -/
abbrev PyDict (α : Type) := List (String × α)

/-- Dict lookup (`d[k]` / `k in d`), first match. -/
def dget {α : Type} : PyDict α → String → Option α
  | [], _ => none
  | (k', v) :: rest, k => if k' = k then some v else dget rest k

/-- Dict assignment `d[k] = v`: overwrite in place, else append. -/
def dset {α : Type} : PyDict α → String → α → PyDict α
  | [], k, v => [(k, v)]
  | (k', v') :: rest, k, v =>
      if k' = k then (k, v) :: rest else (k', v') :: dset rest k v

/-- Last-match lookup, used to describe `dict.update` with possibly repeated
keys in the update argument. -/
def dgetLast {α : Type} : PyDict α → String → Option α
  | [], _ => none
  | (k', v) :: rest, k =>
      match dgetLast rest k with
      | some w => some w
      | none => if k' = k then some v else none

/-- Python `d.update(e)`: assign every entry of `e` into `d`, in order. -/
def dupdate {α : Type} (d e : PyDict α) : PyDict α :=
  e.foldl (fun acc kv => dset acc kv.1 kv.2) d

/-- Split a character list at a separator (the source only ever splits
on `/`).  Matches Python `str.split` for a one-character separator. -/
def chSplit (sep : Char) : List Char → List (List Char)
  | [] => [[]]
  | c :: rest =>
      match chSplit sep rest with
      | [] => [[c]]
      | h :: t => if c = sep then [] :: h :: t else (c :: h) :: t

/-- String split at a one-character separator. -/
def strSplit (s : String) (sep : Char) : List String :=
  (chSplit sep s.data).map (fun cs => String.mk cs)

/-- `s.startswith(pre)` (structural, so closed instances evaluate). -/
def strStarts (s pre : String) : Bool :=
  pre.data.isPrefixOf s.data

/-- `s.endswith(suf)` (structural). -/
def strEnds (s suf : String) : Bool :=
  suf.data.isSuffixOf s.data

/-- `sep.join(parts)` (structural). -/
def strIntercalate (sep : String) : List String → String
  | [] => ""
  | [x] => x
  | x :: xs => x ++ sep ++ strIntercalate sep xs

/-- `os.path.join(a, b)` for the cases arising here. -/
def pjoin (a b : String) : String :=
  if strStarts b "/" then b
  else if a = "" then b
  else if strEnds a "/" then a ++ b
  else a ++ "/" ++ b

/-- `os.makedirs(p)` guarded by `os.path.exists(p)`: record `p` if absent. -/
def addPath (fs : List String) (p : String) : List String :=
  if p ∈ fs then fs else fs ++ [p]

/-- `shutil.rmtree(p)`: remove `p` and every path below it. -/
def removeTree (p : String) (fs : List String) : List String :=
  fs.filter (fun q => ¬(q = p ∨ strStarts q (p ++ "/") = true))

/-- A package descriptor (the fields of the JSON data the core reads).
`versions` pairs each version string with its ordered source-URL list;
`deps` holds the raw dependency declarations (`+` marks optional). -/
structure Pkg where
  name : String := ""
  versions : List (String × List String) := []
  buildSteps : List String := []
  deps : List String := []
  moduleEnv : PyDict String := []
  modulePaths : PyDict (List String) := []

deriving Repr, DecidableEq

/-- The catalog `packages`: axis/module name → (package name → package). -/
abbrev Catalog := PyDict (PyDict Pkg)

/-- One dependency tuple `(module, package, version)` of a Resolution. -/
abbrev Dep := String × Pkg × String

/-- `Package.has_version`. -/
def Pkg.has_version (p : Pkg) (v : String) : Bool :=
  v = "*" || p.versions.any (fun e => e.1 = v)

/-- `Package.versions()`: the list of version strings. -/
def Pkg.versionNames (p : Pkg) : List String :=
  p.versions.map (fun e => e.1)

/-- `package.split('/', 2)`: at most two splits, so at most three parts. -/
def splitSlash2 (s : String) : List String :=
  let parts := strSplit s '/'
  if parts.length ≤ 3 then parts
  else parts.take 2 ++ [strIntercalate "/" (parts.drop 2)]

/-- `find_package`.  The source's not-found sentinel `('', Package(), '*')`
(an empty `Package`, whose truthiness is `False`) is modelled by `none` in
the middle component.  A bucket whose package lacks the requested version is
skipped exactly like a bucket not containing the name at all. -/
def find_package : Catalog → String → String × Option Pkg × String
  | [], _ => ("", none, "*")
  | (m, bucket) :: rest, dep =>
      let parts := splitSlash2 dep
      match dget bucket (parts.headD "") with
      | some found =>
          let version :=
            match parts with
            | [_, v] => v
            | _ => "*"
          if found.has_version version then (m, some found, version)
          else find_package rest dep
      | none => find_package rest dep

/-- The four buckets built by `get_deps` inside `resolve_dependencies`. -/
structure Buckets where
  module_deps : List Dep := []
  optional_module_deps : List Dep := []
  deps : List Dep := []
  optional_deps : List Dep := []

deriving Repr, DecidableEq

/-- Strip the optional marker: `dep[0] == '+'`.  (Declarations are assumed
nonempty; on `""` Python would raise an `IndexError`.) -/
def stripOpt (s : String) : Bool × String :=
  if strStarts s "+" then (true, s.drop 1) else (false, s)

/-- One step of the declaration scan of `get_deps`: classify a raw
declaration into the four buckets.  An axis name expands to every package
registered in that axis bucket (with wildcard version); an ordinary name is
looked up via `find_package` and silently dropped when the lookup fails. -/
def declStep (cat : Catalog) (b : Buckets) (decl : String) : Buckets :=
  let od := stripOpt decl
  let dep := od.2
  if dep ∈ modulesList then
    let bucket := (dget cat dep).getD []
    let cands := bucket.map (fun np => (dep, np.2, "*"))
    if od.1 then { b with optional_module_deps := b.optional_module_deps ++ cands }
    else { b with module_deps := b.module_deps ++ cands }
  else
    match find_package cat dep with
    | (m, some p, v) =>
        if od.1 then { b with optional_deps := b.optional_deps ++ [(m, p, v)] }
        else { b with deps := b.deps ++ [(m, p, v)] }
    | (_, none, _) => b

/-- The bucket-partition phase of `get_deps`. -/
def partitionDeps (cat : Catalog) (decls : List String) : Buckets :=
  decls.foldl (declStep cat) {}

/-- The Resolution-list construction of `get_deps` (lines 196-229):
one optional ordinary dependency at a time, then every optional axis
candidate prepended to every Resolution built so far. -/
def buildResolutions (b : Buckets) : List (List Dep) :=
  let ddeps := b.optional_deps.map (fun od => od :: b.deps)
  let res_deps :=
    if b.module_deps.isEmpty then b.deps :: ddeps
    else (b.module_deps.map (fun md => (md :: b.deps) :: ddeps.map (fun d => md :: d))).flatten
  let res_deps_opt :=
    (b.optional_module_deps.map (fun omd => res_deps.map (fun r => omd :: r))).flatten
  res_deps ++ res_deps_opt

/-- `Package.resolve_dependencies` (the cached `build_deps`), recomputed
from the immutable catalog instead of cached. -/
def resolve_dependencies (cat : Catalog) (p : Pkg) : List (List Dep) :=
  buildResolutions (partitionDeps cat p.deps)

/-!  Path/key computation. -/

/-- Errors of the embedded orchestrator.  `wildcard` is the
`UnsupportedWildcardError` exception; `indexError` and `attrError` are the
Python `IndexError` / `AttributeError` crashes reachable in the source;
`buildFailed pfx fs` is the `exit(1)` after a nonzero build-shell exit,
carrying the rolled-back prefix and the filesystem at that moment;
`fuelOut` marks exhaustion of the recursion fuel of the model. -/
inductive Err where
  | wildcard
  | indexError
  | attrError
  | buildFailed (pfx : String) (fs : List String)
  | fuelOut

deriving Repr, DecidableEq

/-- A value held by an axis variable of `install_version` or stored in an
axis-assignment dict.  `pv p vs` is the tuple `(p, vs)` (with `p = none` for
the initial `(None, ['*'])`); `lst p v` is the one-element list
`[(p, [v])]` that `extract_package` returns for a concrete version. -/
inductive AxisVal where
  | pv (p : Option Pkg) (vs : List String)
  | lst (p : Pkg) (v : String)

deriving Repr, DecidableEq

/-- `v[1]` on an axis value: the version list of a tuple; subscripting the
one-element list raises `IndexError`. -/
def AxisVal.idx1 : AxisVal → Except Err (List String)
  | .pv _ vs => .ok vs
  | .lst _ _ => .error .indexError

/-- Truthiness of `v[0]`: `None` is falsy, a package or a tuple is truthy. -/
def AxisVal.truthy0 : AxisVal → Bool
  | .pv p _ => p.isSome
  | .lst _ _ => true

/-- `v[0]` as a package option (only consulted after `truthy0`, in loop
bodies that are unreachable for `lst` because `idx1` raised first). -/
def AxisVal.pkg0 : AxisVal → Option Pkg
  | .pv p _ => p
  | .lst p _ => some p

/-- `v[0].name()`: `None.name()` and `(p, [v]).name()` both raise
`AttributeError`. -/
def AxisVal.name0 : AxisVal → Except Err String
  | .pv none _ => .error .attrError
  | .pv (some p) _ => .ok p.name
  | .lst _ _ => .error .attrError

/-- `deps[k][0].name() + '-' + deps[k][1][0]`, the per-axis path component
used by `prefix`, `build_dir` and `get_deps_path` (evaluation order:
the `name()` call raises before the `[1][0]` subscript would). -/
def axisComp : AxisVal → Except Err String
  | .pv none _ => .error .attrError
  | .pv (some p) vs =>
      match vs with
      | [] => .error .indexError
      | v :: _ => .ok (p.name ++ "-" ++ v)
  | .lst _ _ => .error .attrError

/-- Append one axis component to a path when the axis is present. -/
def appAxis (path : String) : Option AxisVal → Except Err String
  | none => .ok path
  | some v =>
      match axisComp v with
      | .ok c => .ok (pjoin path c)
      | .error e => .error e

/-- `Package.prefix(basepath, arch, version, deps)`: axis components are
appended in the fixed order compiler, mpi, cuda, python, boost, then the
package name and version.  (`if deps:` merely skips the key tests for a
falsy dict, which is extensionally the same as running them.) -/
def Pkg.prefix_path (self : Pkg) (basepath arch version : String)
    (deps : PyDict AxisVal) : Except Err String := do
  let path := pjoin basepath arch
  let path ← appAxis path (dget deps "compiler")
  let path ← appAxis path (dget deps "mpi")
  let path ← appAxis path (dget deps "cuda")
  let path ← appAxis path (dget deps "python")
  let path ← appAxis path (dget deps "boost")
  pure (pjoin (pjoin path self.name) version)

/-- `Package.build_dir(basepath, arch, version, deps)` (path computation
only; its `os.makedirs` effect under the scratch area is not tracked).
Note the `version` parameter is unused in the source as well, and the
result carries no name/version suffix. -/
def Pkg.build_dir (_self : Pkg) (basepath arch _version : String)
    (deps : PyDict AxisVal) : Except Err String := do
  let path := pjoin (pjoin basepath "build") arch
  let path ← appAxis path (dget deps "compiler")
  let path ← appAxis path (dget deps "mpi")
  let path ← appAxis path (dget deps "cuda")
  let path ← appAxis path (dget deps "python")
  let path ← appAxis path (dget deps "boost")
  pure path

/-- `Package.get_deps_path`: the axis-signature string, joined by `-` in
the order compiler, cuda, mpi, python, boost. -/
def get_deps_path (deps : PyDict AxisVal) : Except Err String := do
  let gd : String → Except Err String := fun k =>
    match dget deps k with
    | some v => axisComp v
    | none => .ok ""
  let dd := ""
  let c ← gd "compiler"
  let dd := if c ≠ "" then dd ++ c else dd
  let cu ← gd "cuda"
  let dd := if cu ≠ "" then dd ++ "-" ++ cu else dd
  let mp ← gd "mpi"
  let dd := if mp ≠ "" then dd ++ "-" ++ mp else dd
  let py ← gd "python"
  let dd := if py ≠ "" then dd ++ "-" ++ py else dd
  let bo ← gd "boost"
  let dd := if bo ≠ "" then dd ++ "-" ++ bo else dd
  pure dd

/-!  Module-file path merge (`base_modulefile`, lines 355-363). -/

/-- The fixed default search-path prepends of `base_modulefile`. -/
def defaultPaths (self : Pkg) : PyDict (List String) :=
  [("PATH", ["bin"]),
   ("LD_LIBRARY_PATH", ["lib", "lib64"]),
   ("MANPATH", ["share/man"]),
   ("INFOPATH", ["share/info"]),
   ("PKG_CONFIG_PATH", ["lib/pkgconfig"]),
   ("PYTHONPATH", ["share/" ++ self.name ++ "/python"])]

/-- `paths = {defaults}; paths.update(self.module_path_vars())`. -/
def mergedPaths (self : Pkg) : PyDict (List String) :=
  dupdate (defaultPaths self) self.modulePaths

/-!  The installation orchestrator. -/

/-- A fold that models a Python `for` loop whose body may raise. -/
def exFold {σ α : Type} (f : σ → α → Except Err σ) : σ → List α → Except Err σ
  | s, [] => .ok s
  | s, a :: l =>
      match f s a with
      | .error e => .error e
      | .ok s' => exFold f s' l

/-- One invocation of the build shell: the command stream written to it
(the `module load` lines and the guarded build steps) together with the
environment and the PACKAGE_PREFIX it is expected to install into. -/
structure ShellRun where
  pkg : String
  ver : String
  prefixPath : String
  loads : List String
  steps : List String
  env : PyDict String

deriving Repr, DecidableEq

/-- The mutable state threaded through the orchestrator: the set of
existing paths and the log of build-shell invocations. -/
structure St where
  fs : List String
  log : List ShellRun

deriving Repr, DecidableEq

/-- External collaborators: whether a given build shell exits zero, the
paths its execution creates, and the source directory produced by
`download_source` + `extract_source` for a URL under a source path. -/
structure World where
  buildOk : ShellRun → Bool
  shellFx : ShellRun → List String → List String
  fetchExtract : String → String → String

/-- The type of the recursive `install_version` call, fuel already applied. -/
abbrev InstFn :=
  Pkg → String → String → String → String → PyDict String →
    Option (PyDict AxisVal) → St → Except Err St

/-- The five axis variables of `install_version`, initialized once (before
the Resolution loop) to `(None, ['*'])` and never reset between
Resolutions. -/
structure AVars where
  compiler : AxisVal
  mpi : AxisVal
  boost : AxisVal
  cuda : AxisVal
  python : AxisVal

deriving Repr, DecidableEq

/-- The initial axis variables. -/
def initAVars : AVars :=
  ⟨.pv none ["*"], .pv none ["*"], .pv none ["*"], .pv none ["*"], .pv none ["*"]⟩

/-- `extract_package(package, pversion)`: a wildcard yields the tuple
`(package, package.versions())`; a concrete version yields the one-element
list `[(package, [pversion])]`. -/
def extract_package (p : Pkg) (v : String) : AxisVal :=
  if v = "*" then .pv (some p) p.versionNames else .lst p v

/-- One step of the dependency scan of a Resolution (lines 428-462):
an axis tuple sets the matching axis variable (externally pinned value
taking precedence) and stores it in `rext_deps`; an ordinary tuple with a
wildcard version raises; any other ordinary tuple is collected. -/
def scanStep (extDeps : Option (PyDict AxisVal))
    (acc : AVars × PyDict AxisVal × List Dep) (d : Dep) :
    Except Err (AVars × PyDict AxisVal × List Dep) :=
  let av := acc.1
  let rext := acc.2.1
  let bd := acc.2.2
  let pick : String → AxisVal := fun key =>
    match extDeps.bind (fun ed => dget ed key) with
    | some x => x
    | none => extract_package d.2.1 d.2.2
  if d.1 = "Compiler" then
    let c := pick "compiler"
    .ok ({ av with compiler := c }, dset rext "compiler" c, bd)
  else if d.1 = "MPI" then
    let c := pick "mpi"
    .ok ({ av with mpi := c }, dset rext "mpi" c, bd)
  else if d.1 = "Boost" then
    let c := pick "boost"
    .ok ({ av with boost := c }, dset rext "boost" c, bd)
  else if d.1 = "CUDA" then
    let c := pick "cuda"
    .ok ({ av with cuda := c }, dset rext "cuda" c, bd)
  else if d.1 = "Python" then
    let c := pick "python"
    .ok ({ av with python := c }, dset rext "python" c, bd)
  else if d.2.2 = "*" then .error .wildcard
  else .ok (av, rext, bd ++ [d])

/-- The dependency scan of one Resolution. -/
def scanDeps (extDeps : Option (PyDict AxisVal)) (av : AVars)
    (rext : PyDict AxisVal) (deps : List Dep) :
    Except Err (AVars × PyDict AxisVal × List Dep) :=
  exFold (scanStep extDeps) (av, rext, []) deps

/-- The `SRC_DIR<i>` bindings built from the declared source URLs. -/
def srcDirDict (w : World) (sourcePath : String) (urls : List String) :
    PyDict String :=
  urls.enum.map (fun iu => ("SRC_DIR" ++ toString iu.1, w.fetchExtract sourcePath iu.2))

/-- The build-shell environment (lines 550-555): `build_env` updated with
the `SRC_DIR<i>` bindings, then `BUILD_DIR` (note: `build_dir` is invoked
with `source_path` as its base path) and `PACKAGE_PREFIX`. -/
def mkShellEnv (self : Pkg) (buildEnv srcDirs : PyDict String)
    (sourcePath arch ver0 : String) (rext : PyDict AxisVal) (pfx : String) :
    Except Err (PyDict String) := do
  let benv := dupdate buildEnv srcDirs
  let bd ← self.build_dir sourcePath arch ver0 rext
  let benv := dset benv "BUILD_DIR" bd
  pure (dset benv "PACKAGE_PREFIX" pfx)

/-- `Package.base_modulefile`, reduced to its filesystem effect and return
value `(base_module, module_dir)`.  The prefix computation of line 306 is
evaluated (for its possible exceptions) before the existence check, as in
the source; the file content itself is not tracked. -/
def base_modulefile (self : Pkg) (basepath arch : String)
    (rext : PyDict AxisVal) (fs : List String) :
    Except Err (String × String × List String) := do
  let modulefiles0 := pjoin (pjoin basepath arch) "modulefiles"
  let depsDir ← get_deps_path rext
  let modulefiles := pjoin modulefiles0 depsDir
  let _ ← self.prefix_path basepath arch "nan" rext
  let baseModuleDir :=
    if depsDir = "" then pjoin (pjoin (pjoin modulefiles "Core") ".base") self.name
    else pjoin (pjoin modulefiles ".base") self.name
  let baseModule := pjoin baseModuleDir "generic.lua"
  let moduleDir :=
    if depsDir = "" then pjoin (pjoin modulefiles "Core") self.name
    else pjoin modulefiles self.name
  if baseModule ∈ fs then
    pure (baseModule, moduleDir, fs)
  else
    pure (baseModule, moduleDir, addPath (addPath fs baseModuleDir) baseModule)

/-- `Package.write_modulefile`: create the module directory and the
version-specific pointer to the base module, each only if absent. -/
def write_modulefile (self : Pkg) (basepath arch ver0 : String)
    (rext : PyDict AxisVal) (fs : List String) : Except Err (List String) := do
  let r ← base_modulefile self basepath arch rext fs
  let fs := addPath r.2.2 r.2.1
  pure (addPath fs (pjoin r.2.1 (ver0 ++ ".lua")))

/-- Install one dependency reached through an axis variable and produce its
`module load` line.  `v` is the axis variable driving the install; `nameSrc`
is the axis variable whose `[0].name()` the source interpolates into the
load line — for Boost the source erroneously passes the CUDA variable
(line 530).  A falsy `v[0]` skips; `v` being the `extract_package` list
raises `AttributeError` (`[(p, [v])][0]` has no `install_version`). -/
def depInstallLoad (inst : InstFn) (v nameSrc : AxisVal)
    (basepath arch modName ver : String) (env : PyDict String)
    (rext : PyDict AxisVal) (st : St) : Except Err (St × Option String) :=
  match v with
  | .pv none _ => .ok (st, none)
  | .pv (some p) _ =>
      match inst p basepath arch modName ver env (some rext) st with
      | .error e => .error e
      | .ok st' =>
          match nameSrc.name0 with
          | .error e => .error e
          | .ok nm => .ok (st', some ("module load " ++ nm ++ "/" ++ ver))
  | .lst _ _ => .error .attrError

/-- The per-call context shared by the five nested version loops. -/
structure LoopCtx where
  w : World
  pp : String
  inst : InstFn
  self : Pkg
  basepath : String
  arch : String
  ver0 : String
  urls : List String
  env : PyDict String
  buildEnv : PyDict String
  av : AVars
  bdeps : List Dep

/-- The dependency-installation block of one concrete product point
(lines 487-537): the five axis dependencies in the order compiler, python,
mpi, cuda, boost, then the ordinary dependencies, together with the
accumulated `module load` lines.  The ordinary-dependency loads are
assembled after the installs, which is extensionally the interleaving of
the source (load-line construction cannot fail). -/
def pointDeps (c : LoopCtx) (bv cv mv pyv cov : String)
    (rext : PyDict AxisVal) (st : St) : Except Err (St × List String) := do
  let r1 ← depInstallLoad c.inst c.av.compiler c.av.compiler c.basepath c.arch "Compiler" cov c.env rext st
  let r2 ← depInstallLoad c.inst c.av.python c.av.python c.basepath c.arch "Python" pyv c.env rext r1.1
  let r3 ← depInstallLoad c.inst c.av.mpi c.av.mpi c.basepath c.arch "MPI" mv c.env rext r2.1
  let r4 ← depInstallLoad c.inst c.av.cuda c.av.cuda c.basepath c.arch "CUDA" cv c.env rext r3.1
  let r5 ← depInstallLoad c.inst c.av.boost c.av.cuda c.basepath c.arch "Boost" bv c.env rext r4.1
  let st ← exFold (fun st d => c.inst d.2.1 c.basepath c.arch d.1 d.2.2 c.env (some rext) st) r5.1 c.bdeps
  pure (st,
    ([r1.2, r2.2, r3.2, r4.2, r5.2].filterMap id) ++
      c.bdeps.map (fun d => "module load " ++ d.2.1.name ++ "/" ++ d.2.2))

/-- The body of the innermost loop (lines 484-577): skip when the prefix
exists; otherwise install dependencies, assemble the environment, run the
build shell, roll back the prefix and abort on a nonzero exit, and write
the module files on success. -/
def pointBody (c : LoopCtx) (bv cv mv pyv cov : String)
    (rext : PyDict AxisVal) (st : St) :
    Except Err (PyDict AxisVal × St) := do
  let pfx ← c.self.prefix_path c.basepath c.arch c.ver0 rext
  if pfx ∈ st.fs then
    pure (rext, st)
  else do
    let r ← pointDeps c bv cv mv pyv cov rext st
    let sourcePath := pjoin (pjoin (pjoin c.pp "source") c.self.name) c.ver0
    let srcDirs := srcDirDict c.w sourcePath c.urls
    let benv ← mkShellEnv c.self c.buildEnv srcDirs sourcePath c.arch c.ver0 rext pfx
    let run : ShellRun :=
      ⟨c.self.name, c.ver0, pfx, r.2, c.self.buildSteps, benv⟩
    if c.w.buildOk run then
      let fs1 := c.w.shellFx run r.1.fs
      let fs2 ← write_modulefile c.self c.basepath c.arch c.ver0 rext fs1
      pure (rext, ⟨fs2, r.1.log ++ [run]⟩)
    else
      let fs1 := c.w.shellFx run r.1.fs
      let fs1 := if pfx ∈ fs1 then removeTree pfx fs1 else fs1
      .error (.buildFailed pfx fs1)

/-- The innermost version loop (`for compiler_version in compiler[1]`). -/
def loopCompiler (c : LoopCtx) (bv cv mv pyv : String)
    (acc : PyDict AxisVal × St) : Except Err (PyDict AxisVal × St) := do
  let vs ← c.av.compiler.idx1
  exFold (fun acc cov =>
      let rext :=
        if c.av.compiler.truthy0 then dset acc.1 "compiler" (.pv c.av.compiler.pkg0 [cov])
        else acc.1
      pointBody c bv cv mv pyv cov rext acc.2)
    acc vs

/-- `for python_version in python[1]`. -/
def loopPython (c : LoopCtx) (bv cv mv : String)
    (acc : PyDict AxisVal × St) : Except Err (PyDict AxisVal × St) := do
  let vs ← c.av.python.idx1
  exFold (fun acc pyv =>
      let rext :=
        if c.av.python.truthy0 then dset acc.1 "python" (.pv c.av.python.pkg0 [pyv])
        else acc.1
      loopCompiler c bv cv mv pyv (rext, acc.2))
    acc vs

/-- `for mpi_version in mpi[1]`. -/
def loopMpi (c : LoopCtx) (bv cv : String)
    (acc : PyDict AxisVal × St) : Except Err (PyDict AxisVal × St) := do
  let vs ← c.av.mpi.idx1
  exFold (fun acc mv =>
      let rext :=
        if c.av.mpi.truthy0 then dset acc.1 "mpi" (.pv c.av.mpi.pkg0 [mv])
        else acc.1
      loopPython c bv cv mv (rext, acc.2))
    acc vs

/-- `for cuda_version in cuda[1]`. -/
def loopCuda (c : LoopCtx) (bv : String)
    (acc : PyDict AxisVal × St) : Except Err (PyDict AxisVal × St) := do
  let vs ← c.av.cuda.idx1
  exFold (fun acc cv =>
      let rext :=
        if c.av.cuda.truthy0 then dset acc.1 "cuda" (.pv c.av.cuda.pkg0 [cv])
        else acc.1
      loopMpi c bv cv (rext, acc.2))
    acc vs

/-- `for boost_version in boost[1]`, the outermost version loop. -/
def loopBoost (c : LoopCtx) (acc : PyDict AxisVal × St) :
    Except Err (PyDict AxisVal × St) := do
  let vs ← c.av.boost.idx1
  exFold (fun acc bv =>
      let rext :=
        if c.av.boost.truthy0 then dset acc.1 "boost" (.pv c.av.boost.pkg0 [bv])
        else acc.1
      loopCuda c bv (rext, acc.2))
    acc vs

/-- The version-entry lookup at the head of `install_version`: a version
string found in the descriptor is replaced by its `(version, urls)` entry;
a string not found stays a string, so `version[0]` is its first character
and `version[1:]` its remaining characters. -/
def versionEntry (self : Pkg) (version : String) :
    Except Err (String × List String) :=
  match self.versions.find? (fun v => v.1 = version) with
  | some v => .ok v
  | none =>
      match version.data with
      | [] => .error .indexError
      | ch :: rest => .ok (String.mk [ch], rest.map (fun c => String.mk [c]))

/-- `Package.install_version`, with recursion fuel.  The `module` argument
is unused in the source (its only use, `module_path`, is dead).  The axis
variables and `rext_deps` are initialized once and threaded through the
whole Resolution loop, exactly as in the source. -/
def install_version (w : World) (cat : Catalog) (pp : String) :
    Nat → Pkg → String → String → String → String → PyDict String →
      Option (PyDict AxisVal) → St → Except Err St
  | 0, _, _, _, _, _, _, _, _ => .error .fuelOut
  | Nat.succ fuel, self, basepath, arch, _module, version, env, extDeps, st => do
      let ve ← versionEntry self version
      let sourcePath := pjoin (pjoin (pjoin pp "source") self.name) ve.1
      let st : St := { st with fs := addPath st.fs sourcePath }
      let buildEnv := dset env "PACKAGE_VERSION" ve.1
      let res ← exFold
        (fun (acc : (AVars × PyDict AxisVal) × St) deps => do
          let s ← scanDeps extDeps acc.1.1 acc.1.2 deps
          let c : LoopCtx :=
            ⟨w, pp, install_version w cat pp fuel, self, basepath, arch,
              ve.1, ve.2, env, buildEnv, s.1, s.2.2⟩
          let r ← loopBoost c (s.2.1, acc.2)
          pure ((s.1, r.1), r.2))
        ((initAVars, ([] : PyDict AxisVal)), st) (resolve_dependencies cat self)
      pure res.2

/-- `Package.install`: install every requested version in order
(environment setup by the caller). -/
def installAll (w : World) (cat : Catalog) (pp : String) (fuel : Nat)
    (self : Pkg) (basepath arch modName : String) (env : PyDict String)
    (versions : List String) (st : St) : Except Err St :=
  exFold
    (fun st v => install_version w cat pp fuel self basepath arch modName v env none st)
    st versions

/-!  Concrete catalogs, packages and worlds used by witnesses and
counterexamples. -/

/-- A world whose builds all succeed and install their prefix. -/
def okWorld : World := ⟨fun _ => true, fun r fs => r.prefixPath :: fs, fun _ u => u⟩

/-- A world whose builds all fail (after creating the prefix). -/
def failWorld : World := ⟨fun _ => false, fun r fs => r.prefixPath :: fs, fun _ u => u⟩

/-- A dependency-free package. -/
def pkgA : Pkg :=
  { name := "A", versions := [("1.0", ["http://x/a.tar.gz"])], buildSteps := ["make install"] }

/-- A catalog holding only `pkgA`. -/
def catA : Catalog := [("Tools", [("A", pkgA)])]

/-- A compiler-axis candidate. -/
def gccP : Pkg := { name := "gcc", versions := [("7", [])] }

/-- An MPI-axis candidate. -/
def mpichP : Pkg := { name := "mpich", versions := [("3", [])] }

/-- A package declaring mandatory Compiler and MPI axis dependencies,
which the resolver turns into two single-axis Resolutions. -/
def pkgP : Pkg := { name := "P", versions := [("1.0", [])], deps := ["Compiler", "MPI"] }

/-- Catalog for `pkgP`. -/
def catP : Catalog :=
  [("Compiler", [("gcc", gccP)]), ("MPI", [("mpich", mpichP)]), ("Tools", [("P", pkgP)])]

/-- A Boost-axis candidate. -/
def boostP : Pkg := { name := "boost", versions := [("1.60", [])] }

/-- A CUDA-axis candidate. -/
def cudaP : Pkg := { name := "cuda", versions := [("9", [])] }

/-- A package with a Boost axis dependency and no CUDA dependency. -/
def pkgQ : Pkg := { name := "Q", versions := [("2", [])], deps := ["Boost"] }

/-- Catalog for `pkgQ`. -/
def catQ : Catalog := [("Boost", [("boost", boostP)]), ("Tools", [("Q", pkgQ)])]

/-- A package declaring CUDA then Boost axis dependencies. -/
def pkgQ2 : Pkg := { name := "Q2", versions := [("2", [])], deps := ["CUDA", "Boost"] }

/-- Catalog for `pkgQ2`. -/
def catQ2 : Catalog :=
  [("Boost", [("boost", boostP)]), ("CUDA", [("cuda", cudaP)]), ("Tools", [("Q2", pkgQ2)])]

/-- A package with one ordinary dependency declared without a version,
which `find_package` resolves with the wildcard `*`. -/
def pkgR : Pkg := { name := "R", versions := [("1", [])], deps := ["A"] }

/-- Catalog for `pkgR`. -/
def catR : Catalog := [("Tools", [("A", pkgA), ("R", pkgR)])]

/-- An optional ordinary dependency target. -/
def pkgDd : Pkg := { name := "D", versions := [("5", [])] }

/-- A package with one mandatory and one optional ordinary dependency. -/
def pkgB8 : Pkg := { name := "B8", versions := [("1", [])], deps := ["A/1.0", "+D/5"] }

/-- Catalog for `pkgB8`. -/
def cat8 : Catalog := [("Tools", [("A", pkgA), ("D", pkgDd), ("B8", pkgB8)])]

/-- A package declaring an extra `PATH` search-path mapping. -/
def pkgC6 : Pkg := { name := "foo", modulePaths := [("PATH", ["sbin"])] }

/-!  Well-formedness of one axis entry of an assignment dict, and its path
component, used to state the shape of `prefix` and `build_dir` results. -/

/-- An axis-assignment entry is good when absent or a tuple of a package
and a nonempty version list. -/
def GoodOpt (o : Option AxisVal) : Prop :=
  o = none ∨ ∃ p v vs, o = some (AxisVal.pv (some p) (v :: vs))

/-- The path component contributed by one axis entry. -/
def axisSeg : Option AxisVal → List String
  | some (AxisVal.pv (some p) (v :: _)) => [p.name ++ "-" ++ v]
  | _ => []

/-- Left fold of `os.path.join` over a component list. -/
def pjoinAll (init : String) (cs : List String) : String :=
  cs.foldl pjoin init

/-- The axis-lookup keys of `prefix` / `build_dir`. -/
def axisKeys : List String := ["compiler", "mpi", "cuda", "python", "boost"]

/-!  Dictionary lemmas. -/

/-- First option if present, else the fallback. -/
def fallback {α : Type} (o d : Option α) : Option α :=
  match o with
  | some v => some v
  | none => d

/-!  Resolver lemmas. -/

/-- Two axis-assignment dicts with the same content in different insertion
order. -/
def d41 : PyDict AxisVal :=
  [("mpi", .pv (some mpichP) ["3"]), ("compiler", .pv (some gccP) ["7"])]

/-- The other insertion order. -/
def d42 : PyDict AxisVal :=
  [("compiler", .pv (some gccP) ["7"]), ("mpi", .pv (some mpichP) ["3"])]

/-!  Error classification: every `buildFailed` error carries a filesystem
from which the failed prefix has been rolled back. -/

/-- An error other than `buildFailed`. -/
def SimpleErr (e : Err) : Prop :=
  e = .wildcard ∨ e = .indexError ∨ e = .attrError ∨ e = .fuelOut

/-- A `buildFailed` error has been rolled back. -/
def NoBF (e : Err) : Prop :=
  ∀ p fsA, e = .buildFailed p fsA → p ∉ fsA

/-- Every error of a computation is simple. -/
def SimpleErrs {α : Type} (x : Except Err α) : Prop :=
  ∀ e, x = .error e → SimpleErr e

/-- Every error of a computation satisfies `NoBF`. -/
def NoBFErrs {α : Type} (x : Except Err α) : Prop :=
  ∀ e, x = .error e → NoBF e

/-- The recursive install function only produces rolled-back failures. -/
def InstNoBF (inst : InstFn) : Prop :=
  ∀ p bp arch md ver env ext st, NoBFErrs (inst p bp arch md ver env ext st)

/-!  Idempotence: a successful install only grows the filesystem, and
re-running from any superset of the resulting filesystem is a no-op. -/

/-- Body property for folds threading a pure component and the state: on
success the filesystem only grows, and re-running the body from any
superset of its final filesystem (with any log) is a no-op producing the
same pure component. -/
def FoldProp {π α : Type} (B : π × St → α → Except Err (π × St)) : Prop :=
  ∀ p fs l a p' st', B (p, ⟨fs, l⟩) a = .ok (p', st') →
    fs ⊆ st'.fs ∧ ∀ g lg, st'.fs ⊆ g → B (p, ⟨g, lg⟩) a = .ok (p', ⟨g, lg⟩)

/-- Body property for folds threading only the state. -/
def FoldPropSt {α : Type} (B : St → α → Except Err St) : Prop :=
  ∀ fs l a st', B ⟨fs, l⟩ a = .ok st' →
    fs ⊆ st'.fs ∧ ∀ g lg, st'.fs ⊆ g → B ⟨g, lg⟩ a = .ok ⟨g, lg⟩

/-- The install function respects monotonicity and replay. -/
def InstProp (inst : InstFn) : Prop :=
  ∀ p bp arch md ver env ext fs l st',
    inst p bp arch md ver env ext ⟨fs, l⟩ = .ok st' →
    fs ⊆ st'.fs ∧ ∀ g lg, st'.fs ⊆ g →
      inst p bp arch md ver env ext ⟨g, lg⟩ = .ok ⟨g, lg⟩

/-- The filesystem produced by the successful concrete run of
`install_version` on `pkgA`. -/
def fsA1 : List String :=
  ["/opt/apps/x86_64/A/1.0", "/repo/packages/source/A/1.0",
   "/opt/apps/x86_64/modulefiles/Core/.base/A",
   "/opt/apps/x86_64/modulefiles/Core/.base/A/generic.lua",
   "/opt/apps/x86_64/modulefiles/Core/A",
   "/opt/apps/x86_64/modulefiles/Core/A/1.0.lua"]

/-- The single build-shell invocation of that run. -/
def runA1 : ShellRun :=
  ⟨"A", "1.0", "/opt/apps/x86_64/A/1.0", [], ["make install"],
   [("PACKAGE_VERSION", "1.0"), ("SRC_DIR0", "http://x/a.tar.gz"),
    ("BUILD_DIR", "/repo/packages/source/A/1.0/build/x86_64"),
    ("PACKAGE_PREFIX", "/opt/apps/x86_64/A/1.0")]⟩

/-- Looking up after `dset`. -/
theorem dget_dset {α : Type} (d : PyDict α) (k : String) (v : α) (k' : String) :
    dget (dset d k v) k' = if k = k' then some v else dget d k' := by
  induction d with
  | nil => simp [dget, dset]
  | cons hd tl ih =>
      rcases hd with ⟨k1, v1⟩
      by_cases h1 : k1 = k
      · subst h1
        simp only [dset, if_pos rfl, dget]
        split_ifs with h
        · rfl
        · rfl
      · simp only [dset, if_neg h1, dget]
        by_cases h2 : k1 = k'
        · subst h2
          have hkk : ¬(k = k1) := fun hh => h1 hh.symm
          simp [if_pos rfl, if_neg hkk]
        · simp [h2, ih]

/-- `dget` after `dict.update` is last-match lookup in the update argument,
falling back to the base dict. -/
theorem dget_dupdate {α : Type} (d e : PyDict α) (k : String) :
    dget (dupdate d e) k = fallback (dgetLast e k) (dget d k) := by
  induction e generalizing d with
  | nil => simp [dupdate, dgetLast, fallback]
  | cons hd tl ih =>
      have step : dupdate d (hd :: tl) = dupdate (dset d hd.1 hd.2) tl := by
        simp [dupdate]
      rw [step, ih]
      cases h : dgetLast tl k with
      | some w => simp [dgetLast, h, fallback]
      | none =>
          simp only [dgetLast, h, dget_dset, fallback]
          by_cases h2 : hd.1 = k <;> simp [h2]

/-- Claim C6 as stated is false: a package-declared mapping for a default
key replaces the default instead of adding to it.  For `pkgC6`, which
declares `PATH → [sbin]`, the merged mapping for `PATH` is `[sbin]` and the
default component `bin` is gone. -/
theorem C6_counterexample :
    dget (mergedPaths pkgC6) "PATH" = some ["sbin"] ∧
      "bin" ∉ (["sbin"] : List String) := by
  constructor
  · rfl
  · decide

/-- Claim C6, amended: the search-path prepends of a generated base module
come from the default set updated key-wise by the package-declared extra
mappings — a key the package declares replaces the default value entirely
(it is not merged), while undeclared default keys survive. -/
theorem C6_amended (p : Pkg) (k : String) :
    dget (mergedPaths p) k =
      fallback (dgetLast p.modulePaths k) (dget (defaultPaths p) k) := by
  simp only [mergedPaths]
  exact dget_dupdate (defaultPaths p) p.modulePaths k

/-- Claim C4: the prefix computation is a pure function of the lookup
content of the assignment — two dicts agreeing on the five axis keys give
identical results, whatever their insertion order — and on well-formed
assignments the result is the path
`basepath/arch/<axis components in the order compiler, mpi, cuda, python,
boost>/name/version`. -/
theorem C4_prefix_deterministic :
    (∀ (self : Pkg) (bp arch ver : String) (d1 d2 : PyDict AxisVal),
        (∀ k ∈ axisKeys, dget d1 k = dget d2 k) →
        self.prefix_path bp arch ver d1 = self.prefix_path bp arch ver d2) ∧
    (∀ (self : Pkg) (bp arch ver : String) (d : PyDict AxisVal),
        GoodOpt (dget d "compiler") → GoodOpt (dget d "mpi") →
        GoodOpt (dget d "cuda") → GoodOpt (dget d "python") →
        GoodOpt (dget d "boost") →
        self.prefix_path bp arch ver d =
          .ok (pjoin (pjoin (pjoinAll (pjoin bp arch)
            (axisSeg (dget d "compiler") ++ axisSeg (dget d "mpi") ++
             axisSeg (dget d "cuda") ++ axisSeg (dget d "python") ++
             axisSeg (dget d "boost"))) self.name) ver)) := by
  constructor
  · intro self bp arch ver d1 d2 h
    have h1 := h "compiler" (by simp [axisKeys])
    have h2 := h "mpi" (by simp [axisKeys])
    have h3 := h "cuda" (by simp [axisKeys])
    have h4 := h "python" (by simp [axisKeys])
    have h5 := h "boost" (by simp [axisKeys])
    simp only [Pkg.prefix_path, h1, h2, h3, h4, h5]
  · intro self bp arch ver d hc hm hcu hp hb
    rcases hc with hc | ⟨p1, v1, vs1, hc⟩ <;>
      rcases hm with hm | ⟨p2, v2, vs2, hm⟩ <;>
        rcases hcu with hcu | ⟨p3, v3, vs3, hcu⟩ <;>
          rcases hp with hp | ⟨p4, v4, vs4, hp⟩ <;>
            rcases hb with hb | ⟨p5, v5, vs5, hb⟩ <;>
              simp only [Pkg.prefix_path, hc, hm, hcu, hp, hb, appAxis,
                axisComp, axisSeg, pjoinAll, List.foldl_append,
                List.foldl_cons, List.foldl_nil] <;>
              rfl

/-- `find_package` skips every bucket when every package registered under
the looked-up name lacks the requested version. -/
theorem find_package_skip (cat : Catalog) (dep nm v : String)
    (hs : splitSlash2 dep = [nm, v])
    (hno : ∀ m bucket p, (m, bucket) ∈ cat → dget bucket nm = some p →
      p.has_version v = false) :
    find_package cat dep = ("", none, "*") := by
  induction cat with
  | nil => rfl
  | cons hd tl ih =>
      rcases hd with ⟨m, bucket⟩
      have htl : ∀ m' bucket' p, (m', bucket') ∈ tl → dget bucket' nm = some p →
          p.has_version v = false := by
        intro m' bucket' p hmem hb
        exact hno m' bucket' p (List.mem_cons_of_mem _ hmem) hb
      cases hb : dget bucket nm with
      | none => simp [find_package, hs, hb, ih htl]
      | some found =>
          have hv := hno m bucket found (List.mem_cons_self _ _) hb
          simp [find_package, hs, hb, hv, ih htl]

/-- A scan step either raises `wildcard` (exactly on an ordinary tuple with
a wildcard version) or succeeds. -/
theorem scanStep_ok_or (ext : Option (PyDict AxisVal))
    (acc : AVars × PyDict AxisVal × List Dep) (d : Dep) :
    (d.1 ∉ modulesList ∧ d.2.2 = "*" ∧ scanStep ext acc d = .error .wildcard) ∨
    ((d.1 ∈ modulesList ∨ d.2.2 ≠ "*") ∧ ∃ acc', scanStep ext acc d = .ok acc') := by
  rcases d with ⟨m, p, v⟩
  by_cases h1 : m = "Compiler"
  · subst h1
    exact Or.inr ⟨Or.inl (by simp [modulesList]), _, rfl⟩
  · by_cases h2 : m = "MPI"
    · subst h2
      exact Or.inr ⟨Or.inl (by simp [modulesList]), _, rfl⟩
    · by_cases h3 : m = "Boost"
      · subst h3
        exact Or.inr ⟨Or.inl (by simp [modulesList]), _, rfl⟩
      · by_cases h4 : m = "CUDA"
        · subst h4
          exact Or.inr ⟨Or.inl (by simp [modulesList]), _, rfl⟩
        · by_cases h5 : m = "Python"
          · subst h5
            exact Or.inr ⟨Or.inl (by simp [modulesList]), _, rfl⟩
          · by_cases hv : v = "*"
            · refine Or.inl ⟨by simp [modulesList, h1, h2, h3, h4, h5], hv, ?_⟩
              simp [scanStep, h1, h2, h3, h4, h5, hv]
            · refine Or.inr ⟨Or.inr hv,
                (acc.1, acc.2.1, acc.2.2 ++ [(m, p, v)]), ?_⟩
              simp [scanStep, h1, h2, h3, h4, h5, hv]

/-- The dependency scan of a tuple list fails exactly when the list holds
an ordinary (non-axis) tuple with wildcard version, and the only error it
raises is `wildcard`. -/
theorem scanFold_error_iff (ext : Option (PyDict AxisVal)) :
    ∀ (deps : List Dep) (acc : AVars × PyDict AxisVal × List Dep),
      ((∃ e, exFold (scanStep ext) acc deps = .error e) ↔
        ∃ d ∈ deps, d.1 ∉ modulesList ∧ d.2.2 = "*") ∧
      (∀ e, exFold (scanStep ext) acc deps = .error e → e = .wildcard) := by
  intro deps
  induction deps with
  | nil =>
      intro acc
      constructor
      · simp [exFold]
      · intro e he
        simp [exFold] at he
  | cons d rest ih =>
      intro acc
      rcases scanStep_ok_or ext acc d with ⟨hna, hw, hstep⟩ | ⟨hcl, acc', hstep⟩
      · have heq : exFold (scanStep ext) acc (d :: rest) = .error .wildcard := by
          simp [exFold, hstep]
        constructor
        · constructor
          · intro _
            exact ⟨d, List.mem_cons_self _ _, hna, hw⟩
          · intro _
            exact ⟨.wildcard, heq⟩
        · intro e he
          rw [heq] at he
          exact (Except.error.injEq _ _).mp he.symm
      · have heq : exFold (scanStep ext) acc (d :: rest) = exFold (scanStep ext) acc' rest := by
          simp [exFold, hstep]
        constructor
        · rw [heq, (ih acc').1]
          constructor
          · rintro ⟨d', hd', hx⟩
            exact ⟨d', List.mem_cons_of_mem _ hd', hx⟩
          · rintro ⟨d', hd', hx⟩
            rcases List.mem_cons.1 hd' with rfl | hd'
            · rcases hcl with hin | hne
              · exact absurd hin hx.1
              · exact absurd hx.2 hne
            · exact ⟨d', hd', hx⟩
        · rw [heq]
          exact (ih acc').2

/-- Claim C8: a package whose declarations partition into mandatory
ordinary deps `ms`, exactly one optional ordinary dep `d` and no axis
candidates resolves to exactly two Resolutions — the base set and the base
set plus `d` — and every Resolution contains all mandatory deps. -/
theorem C8_resolver_one_optional (cat : Catalog) (p : Pkg) (ms : List Dep) (d : Dep)
    (h : partitionDeps cat p.deps =
      { module_deps := [], optional_module_deps := [], deps := ms, optional_deps := [d] }) :
    resolve_dependencies cat p = [ms, d :: ms] ∧
      ∀ r ∈ resolve_dependencies cat p, ∀ m ∈ ms, m ∈ r := by
  have hres : resolve_dependencies cat p = [ms, d :: ms] := by
    simp [resolve_dependencies, h, buildResolutions]
  refine ⟨hres, ?_⟩
  rw [hres]
  intro r hr m hm
  rcases List.mem_cons.1 hr with rfl | hr
  · exact hm
  · rcases List.mem_cons.1 hr with rfl | hr
    · exact List.mem_cons_of_mem _ hm
    · exact absurd hr (List.not_mem_nil _)

/-- Witness for C8 on the concrete catalog `cat8`. -/
theorem C8_resolver_one_optional_witness :
    resolve_dependencies cat8 pkgB8 =
      [[("Tools", pkgA, "1.0")], [("Tools", pkgDd, "5"), ("Tools", pkgA, "1.0")]] ∧
      ∀ r ∈ resolve_dependencies cat8 pkgB8,
        ∀ m ∈ [(("Tools" : String), pkgA, ("1.0" : String))], m ∈ r :=
  C8_resolver_one_optional cat8 pkgB8 [("Tools", pkgA, "1.0")] ("Tools", pkgDd, "5") (by decide)

/-- Claim C10: an ordinary `name/version` declaration whose version no
registered package of that name carries is treated like an unknown name —
`find_package` yields the not-found sentinel and the declaration
contributes nothing to any bucket (so it is dropped from every
Resolution), with no error at resolution time. -/
theorem C10_version_mismatch_dropped (cat : Catalog) (nm v : String)
    (decls : List String)
    (hs : splitSlash2 (nm ++ "/" ++ v) = [nm, v])
    (hplus : strStarts (nm ++ "/" ++ v) "+" = false)
    (hnotaxis : (nm ++ "/" ++ v) ∉ modulesList)
    (hno : ∀ m bucket p, (m, bucket) ∈ cat → dget bucket nm = some p →
      p.has_version v = false) :
    find_package cat (nm ++ "/" ++ v) = ("", none, "*") ∧
      partitionDeps cat (decls ++ [nm ++ "/" ++ v]) = partitionDeps cat decls := by
  have hfp := find_package_skip cat (nm ++ "/" ++ v) nm v hs hno
  refine ⟨hfp, ?_⟩
  simp only [partitionDeps, List.foldl_append, List.foldl_cons, List.foldl_nil]
  simp [declStep, stripOpt, hplus, hnotaxis, hfp]

/-- Witness for C10: `A/2.0` against `catA`, where `A` only has `1.0`. -/
theorem C10_version_mismatch_dropped_witness :
    find_package catA ("A" ++ "/" ++ "2.0") = ("", none, "*") ∧
      partitionDeps catA (["Compiler"] ++ ["A" ++ "/" ++ "2.0"]) =
        partitionDeps catA ["Compiler"] := by
  refine C10_version_mismatch_dropped catA "A" "2.0" ["Compiler"] (by decide) (by decide)
    (by decide) ?_
  intro m bucket p hmem hb
  simp [catA] at hmem
  obtain ⟨rfl, rfl⟩ := hmem
  simp [dget] at hb
  subst hb
  decide

/-- Claim C9: the `UnsupportedWildcardError` is raised by the install-time
dependency scan of a Resolution exactly when that Resolution holds an
ordinary (non-axis) tuple with the wildcard version, and it is the only
error that scan can raise.  The resolver itself never rejects such a
tuple: for the concrete `pkgR` (one ordinary dependency declared without a
version) resolution succeeds, producing the wildcard tuple, and the whole
install aborts with `wildcard`. -/
theorem C9_wildcard_install_time :
    (∀ (extDeps : Option (PyDict AxisVal)) (av : AVars) (rext : PyDict AxisVal)
        (deps : List Dep),
        ((∃ e, scanDeps extDeps av rext deps = .error e) ↔
          ∃ d ∈ deps, d.1 ∉ modulesList ∧ d.2.2 = "*") ∧
        (∀ e, scanDeps extDeps av rext deps = .error e → e = .wildcard)) ∧
    resolve_dependencies catR pkgR = [[("Tools", pkgA, "*")]] ∧
    install_version okWorld catR "/pp" 3 pkgR "/bp" "x86_64" "Tools" "1" [] none ⟨[], []⟩ =
      .error .wildcard := by
  refine ⟨?_, by decide, by decide⟩
  intro extDeps av rext deps
  simp only [scanDeps]
  exact scanFold_error_iff extDeps deps (av, rext, [])

/-- Witness for C9: a concrete ordinary wildcard tuple makes the scan
fail with `wildcard`. -/
theorem C9_wildcard_install_time_witness :
    scanDeps none initAVars [] [(("Tools" : String), pkgA, ("*" : String))] =
      Except.error Err.wildcard := by
  obtain ⟨hiff, -, -⟩ := C9_wildcard_install_time
  obtain ⟨hif, hval⟩ := hiff none initAVars [] [("Tools", pkgA, "*")]
  obtain ⟨e, he⟩ := hif.mpr ⟨("Tools", pkgA, "*"), List.mem_singleton.mpr rfl,
    by decide, rfl⟩
  have hw := hval e he
  rw [hw] at he
  exact he

/-- Claim C3 evidence: `pkgP` declares mandatory Compiler and MPI axis
dependencies, giving two Resolutions, the first containing only the
Compiler candidate and the second only the MPI candidate.  Because the
axis variables and `rext_deps` of `install_version` are initialized before
the Resolution loop and never reset, the compiler axis fixed by the first
Resolution leaks into the second: the second build of `P` is keyed (and
prefixed) under `gcc-7/mpich-3` although its Resolution contains no
Compiler tuple and no external pin was given. -/
theorem C3_stale_axis_leak :
    resolve_dependencies catP pkgP =
      [[("Compiler", gccP, "*")], [("MPI", mpichP, "*")]] ∧
    (install_version okWorld catP "/pp" 3 pkgP "/bp" "x86_64" "Tools" "1.0" []
        none ⟨[], []⟩).map (fun s => s.log.map (fun r => (r.pkg, r.prefixPath))) =
      .ok [("gcc", "/bp/x86_64/gcc/7"), ("P", "/bp/x86_64/gcc-7/P/1.0"),
           ("mpich", "/bp/x86_64/mpich/3"), ("P", "/bp/x86_64/gcc-7/mpich-3/P/1.0")] :=
  ⟨by decide, by decide⟩

/-- Claim C5 evidence: the Boost module-load line interpolates
`cuda[0].name()` (source line 530).  With a Boost dependency and no CUDA
dependency the install crashes (`None.name()`, an `AttributeError`); with
CUDA resolved first, the second Resolution of `pkgQ2` (Boost, plus the
stale CUDA axis) emits `module load cuda/1.60` for the Boost dependency —
the CUDA package name with the Boost version — and never the correct
`module load boost/1.60`. -/
theorem C5_boost_load_uses_cuda_name :
    install_version okWorld catQ "/pp" 3 pkgQ "/bp" "x86_64" "Tools" "2" [] none ⟨[], []⟩ =
      .error .attrError ∧
    (install_version okWorld catQ2 "/pp" 3 pkgQ2 "/bp" "x86_64" "Tools" "2" []
        none ⟨[], []⟩).map (fun s => s.log.map (fun r => (r.pkg, r.loads))) =
      .ok [("cuda", []), ("Q2", ["module load cuda/9"]), ("boost", []),
           ("Q2", ["module load cuda/9", "module load cuda/1.60"])] ∧
    "module load boost/1.60" ∉ ["module load cuda/9", "module load cuda/1.60"] :=
  ⟨by decide, by decide, by decide⟩

/-- Claim C7 as stated is false: the `BUILD_DIR` placed in the build
environment is rooted at the version-specific source directory (the
source passes `source_path` as the base-path argument of `build_dir`),
not at the base path given to Install — for a concrete run with basepath
`/opt/apps` the emitted value does not even lie under `/opt/apps/build`. -/
theorem C7_counterexample :
    (install_version okWorld catA "/repo/packages" 2 pkgA "/opt/apps" "x86_64"
        "Tools" "1.0" [] none ⟨[], []⟩).map
        (fun s => s.log.map (fun r => dget r.env "BUILD_DIR")) =
      .ok [some "/repo/packages/source/A/1.0/build/x86_64"] ∧
    strStarts "/repo/packages/source/A/1.0/build/x86_64" "/opt/apps/build" = false :=
  ⟨by decide, by decide⟩

/-- Witness for C4: concrete dicts in swapped insertion order give the
same prefix, of the documented shape. -/
theorem C4_prefix_deterministic_witness :
    pkgA.prefix_path "/bp" "x86_64" "1.0" d41 = pkgA.prefix_path "/bp" "x86_64" "1.0" d42 ∧
    pkgA.prefix_path "/bp" "x86_64" "1.0" d41 =
      Except.ok (pjoin (pjoin (pjoinAll (pjoin "/bp" "x86_64")
        (axisSeg (dget d41 "compiler") ++ axisSeg (dget d41 "mpi") ++
         axisSeg (dget d41 "cuda") ++ axisSeg (dget d41 "python") ++
         axisSeg (dget d41 "boost"))) pkgA.name) "1.0") ∧
    pkgA.prefix_path "/bp" "x86_64" "1.0" d41 = Except.ok "/bp/x86_64/gcc-7/mpich-3/A/1.0" := by
  refine ⟨?_, ?_, by decide⟩
  · refine C4_prefix_deterministic.1 pkgA "/bp" "x86_64" "1.0" d41 d42 ?_
    intro k hk
    simp [axisKeys] at hk
    rcases hk with rfl | rfl | rfl | rfl | rfl <;> decide
  · exact C4_prefix_deterministic.2 pkgA "/bp" "x86_64" "1.0" d41
      (Or.inr ⟨gccP, "7", [], by decide⟩) (Or.inr ⟨mpichP, "3", [], by decide⟩)
      (Or.inl (by decide)) (Or.inl (by decide)) (Or.inl (by decide))

/-- Claim C7, amended: the `BUILD_DIR` value placed in the build
environment is the deterministic build-scratch path rooted at the
version-specific source directory (`<packagePath>/source/<name>/<version>`,
the `source_path` the call site passes as `build_dir`'s base path), of the
shape `<sourcePath>/build/<arch>/<axis components>` with exactly the axis
components, in the same order, that `prefix` uses — not a path under the
Install base path. -/
theorem C7_build_dir_amended (self : Pkg) (buildEnv srcDirs : PyDict String)
    (sourcePath arch ver0 pfx : String) (rext : PyDict AxisVal)
    (hc : GoodOpt (dget rext "compiler")) (hm : GoodOpt (dget rext "mpi"))
    (hcu : GoodOpt (dget rext "cuda")) (hp : GoodOpt (dget rext "python"))
    (hb : GoodOpt (dget rext "boost")) :
    self.build_dir sourcePath arch ver0 rext =
      .ok (pjoinAll (pjoin (pjoin sourcePath "build") arch)
        (axisSeg (dget rext "compiler") ++ axisSeg (dget rext "mpi") ++
         axisSeg (dget rext "cuda") ++ axisSeg (dget rext "python") ++
         axisSeg (dget rext "boost"))) ∧
    ∀ benv, mkShellEnv self buildEnv srcDirs sourcePath arch ver0 rext pfx = .ok benv →
      dget benv "BUILD_DIR" =
        some (pjoinAll (pjoin (pjoin sourcePath "build") arch)
          (axisSeg (dget rext "compiler") ++ axisSeg (dget rext "mpi") ++
           axisSeg (dget rext "cuda") ++ axisSeg (dget rext "python") ++
           axisSeg (dget rext "boost"))) := by
  have hbd : self.build_dir sourcePath arch ver0 rext =
      .ok (pjoinAll (pjoin (pjoin sourcePath "build") arch)
        (axisSeg (dget rext "compiler") ++ axisSeg (dget rext "mpi") ++
         axisSeg (dget rext "cuda") ++ axisSeg (dget rext "python") ++
         axisSeg (dget rext "boost"))) := by
    rcases hc with hc | ⟨p1, v1, vs1, hc⟩ <;>
      rcases hm with hm | ⟨p2, v2, vs2, hm⟩ <;>
        rcases hcu with hcu | ⟨p3, v3, vs3, hcu⟩ <;>
          rcases hp with hp | ⟨p4, v4, vs4, hp⟩ <;>
            rcases hb with hb | ⟨p5, v5, vs5, hb⟩ <;>
              simp only [Pkg.build_dir, hc, hm, hcu, hp, hb, appAxis,
                axisComp, axisSeg, pjoinAll, List.foldl_append,
                List.foldl_cons, List.foldl_nil] <;>
              rfl
  refine ⟨hbd, ?_⟩
  intro benv hbe
  simp only [mkShellEnv, hbd] at hbe
  have hb2 : Except.ok (dset (dset (dupdate buildEnv srcDirs) "BUILD_DIR"
      (pjoinAll (pjoin (pjoin sourcePath "build") arch)
        (axisSeg (dget rext "compiler") ++ axisSeg (dget rext "mpi") ++
         axisSeg (dget rext "cuda") ++ axisSeg (dget rext "python") ++
         axisSeg (dget rext "boost")))) "PACKAGE_PREFIX" pfx) = Except.ok benv := hbe
  injection hb2 with hb2
  subst hb2
  have hne : ("PACKAGE_PREFIX" : String) ≠ "BUILD_DIR" := by decide
  simp [dget_dset, hne]

/-- Witness for the amended C7 at a concrete context. -/
theorem C7_build_dir_amended_witness :
    pkgA.build_dir "/repo/packages/source/A/1.0" "x86_64" "1.0"
        [("compiler", AxisVal.pv (some gccP) ["7"])] =
      Except.ok "/repo/packages/source/A/1.0/build/x86_64/gcc-7" ∧
    dget [("PACKAGE_VERSION", "1.0"), ("SRC_DIR0", "u"),
        ("BUILD_DIR", "/repo/packages/source/A/1.0/build/x86_64/gcc-7"),
        ("PACKAGE_PREFIX", "/pfx")] "BUILD_DIR" =
      some "/repo/packages/source/A/1.0/build/x86_64/gcc-7" := by
  have h := C7_build_dir_amended pkgA [("PACKAGE_VERSION", "1.0")] [("SRC_DIR0", "u")]
    "/repo/packages/source/A/1.0" "x86_64" "1.0" "/pfx"
    [("compiler", AxisVal.pv (some gccP) ["7"])]
    (Or.inr ⟨gccP, "7", [], by decide⟩) (Or.inl (by decide)) (Or.inl (by decide))
    (Or.inl (by decide)) (Or.inl (by decide))
  constructor
  · rw [h.1]; decide
  · have h2 := h.2
      [("PACKAGE_VERSION", "1.0"), ("SRC_DIR0", "u"),
       ("BUILD_DIR", "/repo/packages/source/A/1.0/build/x86_64/gcc-7"),
       ("PACKAGE_PREFIX", "/pfx")] (by decide)
    rw [h2]; decide

/-- Bind of a success (definitional). -/
theorem ok_bind {α β : Type} (a : α) (f : α → Except Err β) :
    (Except.ok a >>= f) = f a := rfl

/-- Bind of an error (definitional). -/
theorem error_bind {α β : Type} (e : Err) (f : α → Except Err β) :
    ((Except.error e : Except Err α) >>= f) = .error e := rfl

/-- The rolled-back prefix is gone. -/
theorem removeTree_not_mem (p : String) (fs : List String) :
    p ∉ removeTree p fs := by
  intro h
  simp [removeTree, List.mem_filter] at h

/-- Simple errors trivially satisfy `NoBF`. -/
theorem NoBF_of_simple {e : Err} (h : SimpleErr e) : NoBF e := by
  rcases h with rfl | rfl | rfl | rfl <;> intro p fsA h <;> exact Err.noConfusion h

/-- Successes have no errors. -/
theorem SimpleErrs_ok {α : Type} (a : α) : SimpleErrs (Except.ok a) := by
  intro e he
  exact Except.noConfusion he

/-- Successes have no errors. -/
theorem NoBFErrs_ok {α : Type} (a : α) : NoBFErrs (Except.ok a) := by
  intro e he
  exact Except.noConfusion he

/-- `SimpleErrs` computations satisfy `NoBFErrs`. -/
theorem NoBFErrs_of_simple {α : Type} {x : Except Err α} (h : SimpleErrs x) :
    NoBFErrs x := fun e he => NoBF_of_simple (h e he)

/-- `SimpleErrs` is preserved by bind. -/
theorem SimpleErrs_bind {α β : Type} {x : Except Err α} {f : α → Except Err β}
    (hx : SimpleErrs x) (hf : ∀ a, SimpleErrs (f a)) : SimpleErrs (x >>= f) := by
  intro e he
  cases hxx : x with
  | error e' =>
      rw [hxx, error_bind] at he
      injection he with he
      subst he
      exact hx e' hxx
  | ok a =>
      rw [hxx, ok_bind] at he
      exact hf a e he

/-- `NoBFErrs` is preserved by bind. -/
theorem NoBFErrs_bind {α β : Type} {x : Except Err α} {f : α → Except Err β}
    (hx : NoBFErrs x) (hf : ∀ a, NoBFErrs (f a)) : NoBFErrs (x >>= f) := by
  intro e he
  cases hxx : x with
  | error e' =>
      rw [hxx, error_bind] at he
      injection he with he
      subst he
      exact hx e' hxx
  | ok a =>
      rw [hxx, ok_bind] at he
      exact hf a e he

/-- Error classification is preserved by `exFold`. -/
theorem exFold_error_pred {σ α : Type} (Q : Err → Prop) (f : σ → α → Except Err σ)
    (hf : ∀ s a e, f s a = .error e → Q e) :
    ∀ (l : List α) (s : σ) (e : Err), exFold f s l = .error e → Q e := by
  intro l
  induction l with
  | nil =>
      intro s e he
      simp [exFold] at he
  | cons a rest ih =>
      intro s e he
      cases hfa : f s a with
      | error e' =>
          simp [exFold, hfa] at he
          subst he
          exact hf s a e' hfa
      | ok s' =>
          simp [exFold, hfa] at he
          exact ih s' e he

/-- `axisComp` raises only simple errors. -/
theorem axisComp_simple (v : AxisVal) : SimpleErrs (axisComp v) := by
  intro e he
  rcases v with ⟨p, vs⟩ | ⟨p, vv⟩
  · rcases p with _ | p
    · simp [axisComp] at he
      simp [← he, SimpleErr]
    · rcases vs with _ | ⟨v1, vs⟩
      · simp [axisComp] at he
        simp [← he, SimpleErr]
      · simp [axisComp] at he
  · simp [axisComp] at he
    simp [← he, SimpleErr]

/-- `appAxis` raises only simple errors. -/
theorem appAxis_simple (path : String) (o : Option AxisVal) :
    SimpleErrs (appAxis path o) := by
  intro e he
  rcases o with _ | v
  · simp [appAxis] at he
  · simp only [appAxis] at he
    cases hv : axisComp v with
    | error e' =>
        rw [hv] at he
        injection he with he
        subst he
        exact axisComp_simple v e' hv
    | ok c => rw [hv] at he; exact Except.noConfusion he

/-- `prefix_path` raises only simple errors. -/
theorem prefix_path_simple (self : Pkg) (bp arch ver : String) (d : PyDict AxisVal) :
    SimpleErrs (self.prefix_path bp arch ver d) := by
  simp only [Pkg.prefix_path]
  refine SimpleErrs_bind (appAxis_simple _ _) (fun p1 => ?_)
  refine SimpleErrs_bind (appAxis_simple _ _) (fun p2 => ?_)
  refine SimpleErrs_bind (appAxis_simple _ _) (fun p3 => ?_)
  refine SimpleErrs_bind (appAxis_simple _ _) (fun p4 => ?_)
  exact SimpleErrs_bind (appAxis_simple _ _) (fun p5 => SimpleErrs_ok _)

/-- `build_dir` raises only simple errors. -/
theorem build_dir_simple (self : Pkg) (bp arch ver : String) (d : PyDict AxisVal) :
    SimpleErrs (self.build_dir bp arch ver d) := by
  simp only [Pkg.build_dir]
  refine SimpleErrs_bind (appAxis_simple _ _) (fun p1 => ?_)
  refine SimpleErrs_bind (appAxis_simple _ _) (fun p2 => ?_)
  refine SimpleErrs_bind (appAxis_simple _ _) (fun p3 => ?_)
  refine SimpleErrs_bind (appAxis_simple _ _) (fun p4 => ?_)
  exact SimpleErrs_bind (appAxis_simple _ _) (fun p5 => SimpleErrs_ok _)

/-- `get_deps_path` raises only simple errors. -/
theorem get_deps_path_simple (d : PyDict AxisVal) : SimpleErrs (get_deps_path d) := by
  have hgd : ∀ k, SimpleErrs (match dget d k with
      | some v => axisComp v
      | none => .ok "") := by
    intro k
    cases h : dget d k with
    | none => exact SimpleErrs_ok _
    | some v => exact axisComp_simple v
  simp only [get_deps_path]
  refine SimpleErrs_bind (hgd _) (fun c => ?_)
  refine SimpleErrs_bind (hgd _) (fun cu => ?_)
  refine SimpleErrs_bind (hgd _) (fun mp => ?_)
  refine SimpleErrs_bind (hgd _) (fun py => ?_)
  exact SimpleErrs_bind (hgd _) (fun bo => SimpleErrs_ok _)

/-- `versionEntry` raises only simple errors. -/
theorem versionEntry_simple (self : Pkg) (version : String) :
    SimpleErrs (versionEntry self version) := by
  intro e he
  simp only [versionEntry] at he
  cases hf : self.versions.find? (fun v => v.1 = version) with
  | some v => rw [hf] at he; exact Except.noConfusion he
  | none =>
      rw [hf] at he
      cases hd : version.data with
      | nil =>
          rw [hd] at he
          injection he with he
          simp [← he, SimpleErr]
      | cons c rest => rw [hd] at he; exact Except.noConfusion he

/-- `mkShellEnv` raises only simple errors. -/
theorem mkShellEnv_simple (self : Pkg) (buildEnv srcDirs : PyDict String)
    (sourcePath arch ver0 : String) (rext : PyDict AxisVal) (pfx : String) :
    SimpleErrs (mkShellEnv self buildEnv srcDirs sourcePath arch ver0 rext pfx) := by
  simp only [mkShellEnv]
  exact SimpleErrs_bind (build_dir_simple _ _ _ _ _) (fun bd => SimpleErrs_ok _)

/-- `base_modulefile` raises only simple errors. -/
theorem base_modulefile_simple (self : Pkg) (bp arch : String)
    (rext : PyDict AxisVal) (fs : List String) :
    SimpleErrs (base_modulefile self bp arch rext fs) := by
  simp only [base_modulefile]
  refine SimpleErrs_bind (get_deps_path_simple _) (fun dd => ?_)
  refine SimpleErrs_bind (prefix_path_simple _ _ _ _ _) (fun pb => ?_)
  intro e he
  split at he <;> split at he <;> simp [pure, Except.pure] at he

/-- `write_modulefile` raises only simple errors. -/
theorem write_modulefile_simple (self : Pkg) (bp arch ver0 : String)
    (rext : PyDict AxisVal) (fs : List String) :
    SimpleErrs (write_modulefile self bp arch ver0 rext fs) := by
  simp only [write_modulefile]
  exact SimpleErrs_bind (base_modulefile_simple _ _ _ _ _) (fun r => SimpleErrs_ok _)

/-- `scanDeps` raises only simple errors. -/
theorem scanDeps_simple (ext : Option (PyDict AxisVal)) (av : AVars)
    (rext : PyDict AxisVal) (deps : List Dep) :
    SimpleErrs (scanDeps ext av rext deps) := by
  intro e he
  have := (scanFold_error_iff ext deps (av, rext, [])).2 e he
  simp [this, SimpleErr]

/-- `AxisVal.idx1` raises only simple errors. -/
theorem idx1_simple (v : AxisVal) : SimpleErrs v.idx1 := by
  intro e he
  rcases v with ⟨p, vs⟩ | ⟨p, vv⟩
  · exact Except.noConfusion he
  · simp [AxisVal.idx1] at he
    simp [← he, SimpleErr]

/-- `AxisVal.name0` raises only simple errors. -/
theorem name0_simple (v : AxisVal) : SimpleErrs v.name0 := by
  intro e he
  rcases v with ⟨p, vs⟩ | ⟨p, vv⟩
  · rcases p with _ | p
    · simp [AxisVal.name0] at he
      simp [← he, SimpleErr]
    · exact Except.noConfusion he
  · simp [AxisVal.name0] at he
    simp [← he, SimpleErr]

/-- `NoBFErrs` for `pure`. -/
theorem NoBFErrs_pure {α : Type} (a : α) : NoBFErrs (pure a : Except Err α) :=
  NoBFErrs_ok a

/-- `depInstallLoad` only produces rolled-back failures. -/
theorem depInstallLoad_noBF {inst : InstFn} (hinst : InstNoBF inst)
    (v nameSrc : AxisVal) (bp arch mn ver : String) (env : PyDict String)
    (rext : PyDict AxisVal) (st : St) :
    NoBFErrs (depInstallLoad inst v nameSrc bp arch mn ver env rext st) := by
  intro e he
  rcases v with ⟨p, vs⟩ | ⟨p, vv⟩
  · rcases p with _ | p
    · exact Except.noConfusion he
    · simp only [depInstallLoad] at he
      cases hi : inst p bp arch mn ver env (some rext) st with
      | error e' =>
          rw [hi] at he
          injection he with he
          subst he
          exact hinst p bp arch mn ver env (some rext) st e' hi
      | ok st' =>
          rw [hi] at he
          cases hn : nameSrc.name0 with
          | error e2 =>
              rw [hn] at he
              injection he with he
              subst he
              exact NoBF_of_simple (name0_simple nameSrc e2 hn)
          | ok nm => rw [hn] at he; exact Except.noConfusion he
  · simp only [depInstallLoad] at he
    injection he with he
    rw [← he]
    exact NoBF_of_simple (by simp [SimpleErr])

/-- `pointDeps` only produces rolled-back failures. -/
theorem pointDeps_noBF (c : LoopCtx) (hinst : InstNoBF c.inst)
    (bv cv mv pyv cov : String) (rext : PyDict AxisVal) (st : St) :
    NoBFErrs (pointDeps c bv cv mv pyv cov rext st) := by
  simp only [pointDeps]
  refine NoBFErrs_bind (depInstallLoad_noBF hinst _ _ _ _ _ _ _ _ _) (fun r1 => ?_)
  refine NoBFErrs_bind (depInstallLoad_noBF hinst _ _ _ _ _ _ _ _ _) (fun r2 => ?_)
  refine NoBFErrs_bind (depInstallLoad_noBF hinst _ _ _ _ _ _ _ _ _) (fun r3 => ?_)
  refine NoBFErrs_bind (depInstallLoad_noBF hinst _ _ _ _ _ _ _ _ _) (fun r4 => ?_)
  refine NoBFErrs_bind (depInstallLoad_noBF hinst _ _ _ _ _ _ _ _ _) (fun r5 => ?_)
  refine NoBFErrs_bind ?_ (fun st' => NoBFErrs_pure _)
  intro e he
  exact exFold_error_pred NoBF _
    (fun s d e' hfd => hinst _ _ _ _ _ _ _ _ e' hfd) _ _ e he

/-- `pointBody` only produces rolled-back failures: the one `buildFailed`
construction site deletes the prefix first. -/
theorem pointBody_noBF (c : LoopCtx) (hinst : InstNoBF c.inst)
    (bv cv mv pyv cov : String) (rext : PyDict AxisVal) (st : St) :
    NoBFErrs (pointBody c bv cv mv pyv cov rext st) := by
  simp only [pointBody]
  refine NoBFErrs_bind (NoBFErrs_of_simple (prefix_path_simple _ _ _ _ _)) (fun pfx => ?_)
  by_cases hmem : pfx ∈ st.fs
  · simp only [if_pos hmem]
    exact NoBFErrs_pure _
  · simp only [if_neg hmem]
    refine NoBFErrs_bind (pointDeps_noBF c hinst _ _ _ _ _ _ _) (fun r => ?_)
    refine NoBFErrs_bind (NoBFErrs_of_simple (mkShellEnv_simple _ _ _ _ _ _ _ _))
      (fun benv => ?_)
    by_cases hok : c.w.buildOk
        ⟨c.self.name, c.ver0, pfx, r.2, c.self.buildSteps, benv⟩ = true
    · simp only [hok, if_pos, if_true]
      exact NoBFErrs_bind (NoBFErrs_of_simple (write_modulefile_simple _ _ _ _ _ _))
        (fun fs2 => NoBFErrs_pure _)
    · simp only [Bool.not_eq_true] at hok
      simp only [hok, if_false, Bool.false_eq_true]
      intro e he
      injection he with he
      subst he
      intro p fsA heq
      injection heq with h1 h2
      subst h1
      subst h2
      split
      · exact removeTree_not_mem _ _
      · assumption

/-- `loopCompiler` only produces rolled-back failures. -/
theorem loopCompiler_noBF (c : LoopCtx) (hinst : InstNoBF c.inst)
    (bv cv mv pyv : String) (acc : PyDict AxisVal × St) :
    NoBFErrs (loopCompiler c bv cv mv pyv acc) := by
  simp only [loopCompiler]
  refine NoBFErrs_bind (NoBFErrs_of_simple (idx1_simple _)) (fun vs => ?_)
  intro e he
  refine exFold_error_pred NoBF _ ?_ vs acc e he
  intro s a e' hb
  exact pointBody_noBF c hinst _ _ _ _ _ _ _ e' hb

/-- `loopPython` only produces rolled-back failures. -/
theorem loopPython_noBF (c : LoopCtx) (hinst : InstNoBF c.inst)
    (bv cv mv : String) (acc : PyDict AxisVal × St) :
    NoBFErrs (loopPython c bv cv mv acc) := by
  simp only [loopPython]
  refine NoBFErrs_bind (NoBFErrs_of_simple (idx1_simple _)) (fun vs => ?_)
  intro e he
  refine exFold_error_pred NoBF _ ?_ vs acc e he
  intro s a e' hb
  exact loopCompiler_noBF c hinst _ _ _ _ _ e' hb

/-- `loopMpi` only produces rolled-back failures. -/
theorem loopMpi_noBF (c : LoopCtx) (hinst : InstNoBF c.inst)
    (bv cv : String) (acc : PyDict AxisVal × St) :
    NoBFErrs (loopMpi c bv cv acc) := by
  simp only [loopMpi]
  refine NoBFErrs_bind (NoBFErrs_of_simple (idx1_simple _)) (fun vs => ?_)
  intro e he
  refine exFold_error_pred NoBF _ ?_ vs acc e he
  intro s a e' hb
  exact loopPython_noBF c hinst _ _ _ _ e' hb

/-- `loopCuda` only produces rolled-back failures. -/
theorem loopCuda_noBF (c : LoopCtx) (hinst : InstNoBF c.inst)
    (bv : String) (acc : PyDict AxisVal × St) :
    NoBFErrs (loopCuda c bv acc) := by
  simp only [loopCuda]
  refine NoBFErrs_bind (NoBFErrs_of_simple (idx1_simple _)) (fun vs => ?_)
  intro e he
  refine exFold_error_pred NoBF _ ?_ vs acc e he
  intro s a e' hb
  exact loopMpi_noBF c hinst _ _ _ e' hb

/-- `loopBoost` only produces rolled-back failures. -/
theorem loopBoost_noBF (c : LoopCtx) (hinst : InstNoBF c.inst)
    (acc : PyDict AxisVal × St) :
    NoBFErrs (loopBoost c acc) := by
  simp only [loopBoost]
  refine NoBFErrs_bind (NoBFErrs_of_simple (idx1_simple _)) (fun vs => ?_)
  intro e he
  refine exFold_error_pred NoBF _ ?_ vs acc e he
  intro s a e' hb
  exact loopCuda_noBF c hinst _ _ e' hb

/-- `install_version` only produces rolled-back failures. -/
theorem install_version_noBF (w : World) (cat : Catalog) (pp : String) :
    ∀ (fuel : Nat) (self : Pkg) (bp arch md ver : String) (env : PyDict String)
      (ext : Option (PyDict AxisVal)) (st : St),
      NoBFErrs (install_version w cat pp fuel self bp arch md ver env ext st) := by
  intro fuel
  induction fuel with
  | zero =>
      intro self bp arch md ver env ext st e he
      simp only [install_version] at he
      injection he with he
      rw [← he]
      exact NoBF_of_simple (by simp [SimpleErr])
  | succ fuel ih =>
      intro self bp arch md ver env ext st
      have hinst : InstNoBF (install_version w cat pp fuel) := by
        intro p bp' a m v env' ext' st'
        exact ih p bp' a m v env' ext' st'
      simp only [install_version]
      refine NoBFErrs_bind (NoBFErrs_of_simple (versionEntry_simple _ _)) (fun ve => ?_)
      refine NoBFErrs_bind ?_ (fun res => NoBFErrs_pure _)
      intro e he
      refine exFold_error_pred NoBF _ ?_ _ _ e he
      intro s deps e' hb
      refine (NoBFErrs_bind (NoBFErrs_of_simple (scanDeps_simple _ _ _ _))
        (fun sres => ?_)) e' hb
      exact NoBFErrs_bind (loopBoost_noBF _ hinst _) (fun r => NoBFErrs_pure _)

/-- `installAll` only produces rolled-back failures. -/
theorem installAll_noBF (w : World) (cat : Catalog) (pp : String) (fuel : Nat)
    (self : Pkg) (bp arch md : String) (env : PyDict String)
    (vers : List String) (st : St) :
    NoBFErrs (installAll w cat pp fuel self bp arch md env vers st) := by
  intro e he
  refine exFold_error_pred NoBF _ ?_ vers st e he
  intro s v e' hb
  exact install_version_noBF w cat pp fuel self bp arch md v env none s e' hb

/-- Claim C2: whenever the orchestrator aborts with `buildFailed` — the
model of the `exit(1)` after a nonzero build-shell exit — the failed
target's prefix directory is absent from the filesystem at abort time (the
partially created prefix has been deleted), and the whole run (also the
multi-version `installAll` driver) terminates with that error instead of
continuing with further targets. -/
theorem C2_rollback_abort (w : World) (cat : Catalog) (pp : String) :
    (∀ (fuel : Nat) (self : Pkg) (bp arch md ver : String) (env : PyDict String)
        (ext : Option (PyDict AxisVal)) (st : St) (p : String) (fsA : List String),
        install_version w cat pp fuel self bp arch md ver env ext st =
          .error (.buildFailed p fsA) → p ∉ fsA) ∧
    (∀ (fuel : Nat) (self : Pkg) (bp arch md : String) (env : PyDict String)
        (vers : List String) (st : St) (p : String) (fsA : List String),
        installAll w cat pp fuel self bp arch md env vers st =
          .error (.buildFailed p fsA) → p ∉ fsA) := by
  constructor
  · intro fuel self bp arch md ver env ext st p fsA he
    exact install_version_noBF w cat pp fuel self bp arch md ver env ext st _ he p fsA rfl
  · intro fuel self bp arch md env vers st p fsA he
    exact installAll_noBF w cat pp fuel self bp arch md env vers st _ he p fsA rfl

/-- Witness for C2: a concrete failing build rolls its prefix back. -/
theorem C2_rollback_abort_witness :
    install_version failWorld catA "/repo/packages" 2 pkgA "/opt/apps" "x86_64"
        "Tools" "1.0" [] none ⟨[], []⟩ =
      .error (.buildFailed "/opt/apps/x86_64/A/1.0" ["/repo/packages/source/A/1.0"]) ∧
    "/opt/apps/x86_64/A/1.0" ∉ ["/repo/packages/source/A/1.0"] := by
  have h1 : install_version failWorld catA "/repo/packages" 2 pkgA "/opt/apps" "x86_64"
      "Tools" "1.0" [] none ⟨[], []⟩ =
      .error (.buildFailed "/opt/apps/x86_64/A/1.0" ["/repo/packages/source/A/1.0"]) := by
    decide
  exact ⟨h1, (C2_rollback_abort failWorld catA "/repo/packages").1 2 pkgA "/opt/apps"
    "x86_64" "Tools" "1.0" [] none ⟨[], []⟩ _ _ h1⟩

/-- `addPath` only grows. -/
theorem addPath_subset (fs : List String) (p : String) : fs ⊆ addPath fs p := by
  by_cases h : p ∈ fs
  · simp [addPath, h]
  · simp only [addPath, if_neg h]
    exact List.subset_append_left fs [p]

/-- Adding a present path changes nothing. -/
theorem addPath_of_mem {fs : List String} {p : String} (h : p ∈ fs) :
    addPath fs p = fs := by
  simp [addPath, h]

/-- The added path is present. -/
theorem addPath_mem (fs : List String) (p : String) : p ∈ addPath fs p := by
  by_cases h : p ∈ fs
  · rw [addPath_of_mem h]
    exact h
  · simp [addPath, if_neg h]

/-- `base_modulefile` only grows the filesystem. -/
theorem base_modulefile_mono (self : Pkg) (bp arch : String)
    (rext : PyDict AxisVal) (fs : List String) (r : String × String × List String)
    (h : base_modulefile self bp arch rext fs = .ok r) : fs ⊆ r.2.2 := by
  simp only [base_modulefile] at h
  cases hdd : get_deps_path rext with
  | error e => rw [hdd] at h; exact Except.noConfusion h
  | ok dd =>
      rw [hdd, ok_bind] at h
      cases hpb : self.prefix_path bp arch "nan" rext with
      | error e => rw [hpb] at h; exact Except.noConfusion h
      | ok pb =>
          rw [hpb, ok_bind] at h
          split at h <;> split at h <;> injection h with h <;> rw [← h]
          · exact List.Subset.refl fs
          · exact (addPath_subset _ _).trans (addPath_subset _ _)
          · exact List.Subset.refl fs
          · exact (addPath_subset _ _).trans (addPath_subset _ _)

/-- `write_modulefile` only grows the filesystem. -/
theorem write_modulefile_mono (self : Pkg) (bp arch v : String)
    (rext : PyDict AxisVal) (fs fs' : List String)
    (h : write_modulefile self bp arch v rext fs = .ok fs') : fs ⊆ fs' := by
  simp only [write_modulefile] at h
  cases hbm : base_modulefile self bp arch rext fs with
  | error e => rw [hbm] at h; exact Except.noConfusion h
  | ok r =>
      rw [hbm, ok_bind] at h
      injection h with h
      rw [← h]
      exact ((base_modulefile_mono self bp arch rext fs r hbm).trans
        (addPath_subset _ _)).trans (addPath_subset _ _)

/-- `exFold` inherits the body property. -/
theorem exFold_replay {π α : Type} (B : π × St → α → Except Err (π × St))
    (hB : FoldProp B) :
    ∀ (L : List α) (p : π) (fs : List String) (l : List ShellRun) (p' : π) (st' : St),
      exFold B (p, ⟨fs, l⟩) L = .ok (p', st') →
      fs ⊆ st'.fs ∧ ∀ g lg, st'.fs ⊆ g → exFold B (p, ⟨g, lg⟩) L = .ok (p', ⟨g, lg⟩) := by
  intro L
  induction L with
  | nil =>
      intro p fs l p' st' h
      simp only [exFold] at h
      injection h with h
      obtain ⟨h1, h2⟩ := Prod.mk.inj h
      subst h1
      subst h2
      exact ⟨List.Subset.refl fs, fun g lg hg => rfl⟩
  | cons a L ih =>
      intro p fs l p' st' h
      cases hB1 : B (p, ⟨fs, l⟩) a with
      | error e => simp [exFold, hB1] at h
      | ok acc1 =>
          obtain ⟨p1, st1⟩ := acc1
          obtain ⟨fs1, l1⟩ := st1
          have hforward : exFold B (p1, ⟨fs1, l1⟩) L = .ok (p', st') := by
            simp only [exFold, hB1] at h
            exact h
          obtain ⟨hmono1, hreplay1⟩ := hB p fs l a p1 ⟨fs1, l1⟩ hB1
          obtain ⟨hmono2, hreplay2⟩ := ih p1 fs1 l1 p' st' hforward
          refine ⟨hmono1.trans hmono2, ?_⟩
          intro g lg hg
          have hB2 := hreplay1 g lg (hmono2.trans hg)
          have hrest := hreplay2 g lg hg
          simp [exFold, hB2, hrest]

/-- `exFold` inherits the state-only body property. -/
theorem exFold_replay_st {α : Type} (B : St → α → Except Err St)
    (hB : FoldPropSt B) :
    ∀ (L : List α) (fs : List String) (l : List ShellRun) (st' : St),
      exFold B ⟨fs, l⟩ L = .ok st' →
      fs ⊆ st'.fs ∧ ∀ g lg, st'.fs ⊆ g → exFold B ⟨g, lg⟩ L = .ok ⟨g, lg⟩ := by
  intro L
  induction L with
  | nil =>
      intro fs l st' h
      simp only [exFold] at h
      injection h with h
      subst h
      exact ⟨List.Subset.refl fs, fun g lg hg => rfl⟩
  | cons a L ih =>
      intro fs l st' h
      cases hB1 : B ⟨fs, l⟩ a with
      | error e => simp [exFold, hB1] at h
      | ok st1 =>
          obtain ⟨fs1, l1⟩ := st1
          have hforward : exFold B ⟨fs1, l1⟩ L = .ok st' := by
            simp only [exFold, hB1] at h
            exact h
          obtain ⟨hmono1, hreplay1⟩ := hB fs l a ⟨fs1, l1⟩ hB1
          obtain ⟨hmono2, hreplay2⟩ := ih fs1 l1 st' hforward
          refine ⟨hmono1.trans hmono2, ?_⟩
          intro g lg hg
          have hB2 := hreplay1 g lg (hmono2.trans hg)
          have hrest := hreplay2 g lg hg
          simp [exFold, hB2, hrest]

/-- `depInstallLoad` respects monotonicity and replay, with the load line
independent of the state. -/
theorem depInstallLoad_prop {inst : InstFn} (hinst : InstProp inst)
    (v ns : AxisVal) (bp arch mn ver : String) (env : PyDict String)
    (rext : PyDict AxisVal) :
    ∀ (fs : List String) (l : List ShellRun) (st' : St) (r : Option String),
      depInstallLoad inst v ns bp arch mn ver env rext ⟨fs, l⟩ = .ok (st', r) →
      fs ⊆ st'.fs ∧ ∀ g lg, st'.fs ⊆ g →
        depInstallLoad inst v ns bp arch mn ver env rext ⟨g, lg⟩ = .ok (⟨g, lg⟩, r) := by
  intro fs l st' r h
  rcases v with ⟨p, vs⟩ | ⟨p, vv⟩
  · rcases p with _ | p
    · simp only [depInstallLoad] at h
      injection h with h
      obtain ⟨h1, h2⟩ := Prod.mk.inj h
      subst h1
      subst h2
      exact ⟨List.Subset.refl fs, fun g lg hg => rfl⟩
    · simp only [depInstallLoad] at h
      cases hi : inst p bp arch mn ver env (some rext) ⟨fs, l⟩ with
      | error e => rw [hi] at h; exact Except.noConfusion h
      | ok st1 =>
          rw [hi] at h
          cases hn : ns.name0 with
          | error e => rw [hn] at h; exact Except.noConfusion h
          | ok nm =>
              rw [hn] at h
              injection h with h
              obtain ⟨h1, h2⟩ := Prod.mk.inj h
              subst h1
              subst h2
              obtain ⟨hm, hr⟩ := hinst p bp arch mn ver env (some rext) fs l st1 hi
              refine ⟨hm, ?_⟩
              intro g lg hg
              have hi2 := hr g lg hg
              simp only [depInstallLoad, hi2, hn]
  · simp only [depInstallLoad] at h
    exact Except.noConfusion h

/-- `pointDeps` respects monotonicity and replay, with the accumulated
load-line list independent of the state. -/
theorem pointDeps_prop (c : LoopCtx) (hinst : InstProp c.inst)
    (bv cv mv pyv cov : String) (rext : PyDict AxisVal) :
    ∀ (fs : List String) (l : List ShellRun) (st' : St) (loads : List String),
      pointDeps c bv cv mv pyv cov rext ⟨fs, l⟩ = .ok (st', loads) →
      fs ⊆ st'.fs ∧ ∀ g lg, st'.fs ⊆ g →
        pointDeps c bv cv mv pyv cov rext ⟨g, lg⟩ = .ok (⟨g, lg⟩, loads) := by
  have hfold : FoldPropSt
      (fun (st : St) (d : Dep) =>
        c.inst d.2.1 c.basepath c.arch d.1 d.2.2 c.env (some rext) st) := by
    intro fs l a st' h
    exact hinst a.2.1 c.basepath c.arch a.1 a.2.2 c.env (some rext) fs l st' h
  intro fs l st' loads h
  simp only [pointDeps] at h
  cases h1 : depInstallLoad c.inst c.av.compiler c.av.compiler c.basepath c.arch
      "Compiler" cov c.env rext ⟨fs, l⟩ with
  | error e => rw [h1] at h; exact Except.noConfusion h
  | ok r1 =>
  rw [h1, ok_bind] at h
  obtain ⟨st1, o1⟩ := r1
  obtain ⟨fs1, l1⟩ := st1
  cases h2 : depInstallLoad c.inst c.av.python c.av.python c.basepath c.arch
      "Python" pyv c.env rext ⟨fs1, l1⟩ with
  | error e => rw [h2] at h; exact Except.noConfusion h
  | ok r2 =>
  rw [h2, ok_bind] at h
  obtain ⟨st2, o2⟩ := r2
  obtain ⟨fs2, l2⟩ := st2
  cases h3 : depInstallLoad c.inst c.av.mpi c.av.mpi c.basepath c.arch
      "MPI" mv c.env rext ⟨fs2, l2⟩ with
  | error e => rw [h3] at h; exact Except.noConfusion h
  | ok r3 =>
  rw [h3, ok_bind] at h
  obtain ⟨st3, o3⟩ := r3
  obtain ⟨fs3, l3⟩ := st3
  cases h4 : depInstallLoad c.inst c.av.cuda c.av.cuda c.basepath c.arch
      "CUDA" cv c.env rext ⟨fs3, l3⟩ with
  | error e => rw [h4] at h; exact Except.noConfusion h
  | ok r4 =>
  rw [h4, ok_bind] at h
  obtain ⟨st4, o4⟩ := r4
  obtain ⟨fs4, l4⟩ := st4
  cases h5 : depInstallLoad c.inst c.av.boost c.av.cuda c.basepath c.arch
      "Boost" bv c.env rext ⟨fs4, l4⟩ with
  | error e => rw [h5] at h; exact Except.noConfusion h
  | ok r5 =>
  rw [h5, ok_bind] at h
  obtain ⟨st5, o5⟩ := r5
  obtain ⟨fs5, l5⟩ := st5
  cases h6 : exFold
      (fun (st : St) (d : Dep) =>
        c.inst d.2.1 c.basepath c.arch d.1 d.2.2 c.env (some rext) st)
      ⟨fs5, l5⟩ c.bdeps with
  | error e => rw [h6] at h; exact Except.noConfusion h
  | ok st6 =>
  rw [h6, ok_bind] at h
  injection h with h
  obtain ⟨h7, h8⟩ := Prod.mk.inj h
  subst h7
  subst h8
  obtain ⟨hm1, hr1⟩ := depInstallLoad_prop hinst _ _ _ _ _ _ _ _ fs l ⟨fs1, l1⟩ o1 h1
  obtain ⟨hm2, hr2⟩ := depInstallLoad_prop hinst _ _ _ _ _ _ _ _ fs1 l1 ⟨fs2, l2⟩ o2 h2
  obtain ⟨hm3, hr3⟩ := depInstallLoad_prop hinst _ _ _ _ _ _ _ _ fs2 l2 ⟨fs3, l3⟩ o3 h3
  obtain ⟨hm4, hr4⟩ := depInstallLoad_prop hinst _ _ _ _ _ _ _ _ fs3 l3 ⟨fs4, l4⟩ o4 h4
  obtain ⟨hm5, hr5⟩ := depInstallLoad_prop hinst _ _ _ _ _ _ _ _ fs4 l4 ⟨fs5, l5⟩ o5 h5
  obtain ⟨hm6, hr6⟩ := exFold_replay_st _ hfold c.bdeps fs5 l5 st6 h6
  have hsub1 : fs ⊆ st6.fs :=
    ((((hm1.trans hm2).trans hm3).trans hm4).trans hm5).trans hm6
  refine ⟨hsub1, ?_⟩
  intro g lg hg
  have e1 := hr1 g lg (((((hm2.trans hm3).trans hm4).trans hm5).trans hm6).trans hg)
  have e2 := hr2 g lg (((((hm3.trans hm4).trans hm5).trans hm6).trans hg))
  have e3 := hr3 g lg ((((hm4.trans hm5).trans hm6).trans hg))
  have e4 := hr4 g lg (((hm5.trans hm6).trans hg))
  have e5 := hr5 g lg ((hm6.trans hg))
  have e6 := hr6 g lg hg
  simp only [pointDeps, e1, ok_bind, e2, e3, e4, e5, e6]
  rfl

/-- `pointBody` respects monotonicity and replay: a skipped point leaves
the state untouched, and a successfully built point establishes its prefix
in the filesystem (the build shell installs into `PACKAGE_PREFIX` and
deletes nothing), so a re-run from any superset skips it. -/
theorem pointBody_prop (c : LoopCtx) (hinst : InstProp c.inst)
    (H1 : ∀ r fs, fs ⊆ c.w.shellFx r fs)
    (H2 : ∀ r fs, c.w.buildOk r = true → r.prefixPath ∈ c.w.shellFx r fs)
    (bv cv mv pyv cov : String) (rext : PyDict AxisVal) :
    ∀ (fs : List String) (l : List ShellRun) (p' : PyDict AxisVal) (st' : St),
      pointBody c bv cv mv pyv cov rext ⟨fs, l⟩ = .ok (p', st') →
      fs ⊆ st'.fs ∧ ∀ g lg, st'.fs ⊆ g →
        pointBody c bv cv mv pyv cov rext ⟨g, lg⟩ = .ok (p', ⟨g, lg⟩) := by
  intro fs l p' st' h
  simp only [pointBody] at h
  cases hpfx : c.self.prefix_path c.basepath c.arch c.ver0 rext with
  | error e => rw [hpfx] at h; exact Except.noConfusion h
  | ok pfx =>
  rw [hpfx, ok_bind] at h
  by_cases hmem : pfx ∈ fs
  · rw [if_pos (show pfx ∈ (St.mk fs l).fs from hmem)] at h
    injection h with h
    obtain ⟨h1, h2⟩ := Prod.mk.inj h
    subst h1
    subst h2
    refine ⟨List.Subset.refl fs, ?_⟩
    intro g lg hg
    simp only [pointBody, hpfx, ok_bind]
    rw [if_pos (show pfx ∈ (St.mk g lg).fs from hg hmem)]
    rfl
  · rw [if_neg (show ¬pfx ∈ (St.mk fs l).fs from hmem)] at h
    cases hpd : pointDeps c bv cv mv pyv cov rext ⟨fs, l⟩ with
    | error e => rw [hpd] at h; exact Except.noConfusion h
    | ok r =>
    rw [hpd, ok_bind] at h
    obtain ⟨st1, loads⟩ := r
    obtain ⟨fs1, l1⟩ := st1
    cases hbe : mkShellEnv c.self c.buildEnv
        (srcDirDict c.w (pjoin (pjoin (pjoin c.pp "source") c.self.name) c.ver0) c.urls)
        (pjoin (pjoin (pjoin c.pp "source") c.self.name) c.ver0) c.arch c.ver0 rext pfx with
    | error e => rw [hbe] at h; exact Except.noConfusion h
    | ok benv =>
    rw [hbe, ok_bind] at h
    by_cases hok : c.w.buildOk ⟨c.self.name, c.ver0, pfx, loads, c.self.buildSteps, benv⟩ = true
    · rw [if_pos hok] at h
      cases hwm : write_modulefile c.self c.basepath c.arch c.ver0 rext
          (c.w.shellFx ⟨c.self.name, c.ver0, pfx, loads, c.self.buildSteps, benv⟩ fs1) with
      | error e => rw [hwm] at h; exact Except.noConfusion h
      | ok fs2 =>
      rw [hwm, ok_bind] at h
      injection h with h
      obtain ⟨h1, h2⟩ := Prod.mk.inj h
      subst h1
      subst h2
      obtain ⟨hm1, _⟩ := pointDeps_prop c hinst bv cv mv pyv cov rext fs l ⟨fs1, l1⟩ loads hpd
      have hm2 : fs1 ⊆ c.w.shellFx ⟨c.self.name, c.ver0, pfx, loads, c.self.buildSteps, benv⟩ fs1 :=
        H1 _ _
      have hm3 : c.w.shellFx ⟨c.self.name, c.ver0, pfx, loads, c.self.buildSteps, benv⟩ fs1 ⊆ fs2 :=
        write_modulefile_mono _ _ _ _ _ _ _ hwm
      have hpfxmem : pfx ∈ fs2 :=
        hm3 (H2 ⟨c.self.name, c.ver0, pfx, loads, c.self.buildSteps, benv⟩ fs1 hok)
      refine ⟨(hm1.trans hm2).trans hm3, ?_⟩
      intro g lg hg
      simp only [pointBody, hpfx, ok_bind]
      rw [if_pos (show pfx ∈ (St.mk g lg).fs from hg hpfxmem)]
      rfl
    · simp only [Bool.not_eq_true] at hok
      rw [hok] at h
      simp only [Bool.false_eq_true, if_false] at h
      exact Except.noConfusion h

/-- `loopCompiler` respects monotonicity and replay. -/
theorem loopCompiler_prop (c : LoopCtx) (hinst : InstProp c.inst)
    (H1 : ∀ r fs, fs ⊆ c.w.shellFx r fs)
    (H2 : ∀ r fs, c.w.buildOk r = true → r.prefixPath ∈ c.w.shellFx r fs)
    (bv cv mv pyv : String) :
    ∀ (rext : PyDict AxisVal) (fs : List String) (l : List ShellRun)
      (p' : PyDict AxisVal) (st' : St),
      loopCompiler c bv cv mv pyv (rext, ⟨fs, l⟩) = .ok (p', st') →
      fs ⊆ st'.fs ∧ ∀ g lg, st'.fs ⊆ g →
        loopCompiler c bv cv mv pyv (rext, ⟨g, lg⟩) = .ok (p', ⟨g, lg⟩) := by
  intro rext fs l p' st' h
  simp only [loopCompiler] at h
  cases hvs : c.av.compiler.idx1 with
  | error e => rw [hvs] at h; exact Except.noConfusion h
  | ok vs =>
  rw [hvs, ok_bind] at h
  have hB : FoldProp (fun (acc : PyDict AxisVal × St) cov =>
      pointBody c bv cv mv pyv cov
        (if c.av.compiler.truthy0 then dset acc.1 "compiler" (.pv c.av.compiler.pkg0 [cov])
         else acc.1) acc.2) := by
    intro p fs' l' a p'' st'' hb
    exact pointBody_prop c hinst H1 H2 bv cv mv pyv a _ fs' l' p'' st'' hb
  obtain ⟨hm, hr⟩ := exFold_replay _ hB vs rext fs l p' st' h
  refine ⟨hm, ?_⟩
  intro g lg hg
  simp only [loopCompiler, hvs, ok_bind]
  exact hr g lg hg

/-- `loopPython` respects monotonicity and replay. -/
theorem loopPython_prop (c : LoopCtx) (hinst : InstProp c.inst)
    (H1 : ∀ r fs, fs ⊆ c.w.shellFx r fs)
    (H2 : ∀ r fs, c.w.buildOk r = true → r.prefixPath ∈ c.w.shellFx r fs)
    (bv cv mv : String) :
    ∀ (rext : PyDict AxisVal) (fs : List String) (l : List ShellRun)
      (p' : PyDict AxisVal) (st' : St),
      loopPython c bv cv mv (rext, ⟨fs, l⟩) = .ok (p', st') →
      fs ⊆ st'.fs ∧ ∀ g lg, st'.fs ⊆ g →
        loopPython c bv cv mv (rext, ⟨g, lg⟩) = .ok (p', ⟨g, lg⟩) := by
  intro rext fs l p' st' h
  simp only [loopPython] at h
  cases hvs : c.av.python.idx1 with
  | error e => rw [hvs] at h; exact Except.noConfusion h
  | ok vs =>
  rw [hvs, ok_bind] at h
  have hB : FoldProp (fun (acc : PyDict AxisVal × St) pyv =>
      loopCompiler c bv cv mv pyv
        ((if c.av.python.truthy0 then dset acc.1 "python" (.pv c.av.python.pkg0 [pyv])
          else acc.1), acc.2)) := by
    intro p fs' l' a p'' st'' hb
    exact loopCompiler_prop c hinst H1 H2 bv cv mv a _ fs' l' p'' st'' hb
  obtain ⟨hm, hr⟩ := exFold_replay _ hB vs rext fs l p' st' h
  refine ⟨hm, ?_⟩
  intro g lg hg
  simp only [loopPython, hvs, ok_bind]
  exact hr g lg hg

/-- `loopMpi` respects monotonicity and replay. -/
theorem loopMpi_prop (c : LoopCtx) (hinst : InstProp c.inst)
    (H1 : ∀ r fs, fs ⊆ c.w.shellFx r fs)
    (H2 : ∀ r fs, c.w.buildOk r = true → r.prefixPath ∈ c.w.shellFx r fs)
    (bv cv : String) :
    ∀ (rext : PyDict AxisVal) (fs : List String) (l : List ShellRun)
      (p' : PyDict AxisVal) (st' : St),
      loopMpi c bv cv (rext, ⟨fs, l⟩) = .ok (p', st') →
      fs ⊆ st'.fs ∧ ∀ g lg, st'.fs ⊆ g →
        loopMpi c bv cv (rext, ⟨g, lg⟩) = .ok (p', ⟨g, lg⟩) := by
  intro rext fs l p' st' h
  simp only [loopMpi] at h
  cases hvs : c.av.mpi.idx1 with
  | error e => rw [hvs] at h; exact Except.noConfusion h
  | ok vs =>
  rw [hvs, ok_bind] at h
  have hB : FoldProp (fun (acc : PyDict AxisVal × St) mv =>
      loopPython c bv cv mv
        ((if c.av.mpi.truthy0 then dset acc.1 "mpi" (.pv c.av.mpi.pkg0 [mv])
          else acc.1), acc.2)) := by
    intro p fs' l' a p'' st'' hb
    exact loopPython_prop c hinst H1 H2 bv cv a _ fs' l' p'' st'' hb
  obtain ⟨hm, hr⟩ := exFold_replay _ hB vs rext fs l p' st' h
  refine ⟨hm, ?_⟩
  intro g lg hg
  simp only [loopMpi, hvs, ok_bind]
  exact hr g lg hg

/-- `loopCuda` respects monotonicity and replay. -/
theorem loopCuda_prop (c : LoopCtx) (hinst : InstProp c.inst)
    (H1 : ∀ r fs, fs ⊆ c.w.shellFx r fs)
    (H2 : ∀ r fs, c.w.buildOk r = true → r.prefixPath ∈ c.w.shellFx r fs)
    (bv : String) :
    ∀ (rext : PyDict AxisVal) (fs : List String) (l : List ShellRun)
      (p' : PyDict AxisVal) (st' : St),
      loopCuda c bv (rext, ⟨fs, l⟩) = .ok (p', st') →
      fs ⊆ st'.fs ∧ ∀ g lg, st'.fs ⊆ g →
        loopCuda c bv (rext, ⟨g, lg⟩) = .ok (p', ⟨g, lg⟩) := by
  intro rext fs l p' st' h
  simp only [loopCuda] at h
  cases hvs : c.av.cuda.idx1 with
  | error e => rw [hvs] at h; exact Except.noConfusion h
  | ok vs =>
  rw [hvs, ok_bind] at h
  have hB : FoldProp (fun (acc : PyDict AxisVal × St) cv =>
      loopMpi c bv cv
        ((if c.av.cuda.truthy0 then dset acc.1 "cuda" (.pv c.av.cuda.pkg0 [cv])
          else acc.1), acc.2)) := by
    intro p fs' l' a p'' st'' hb
    exact loopMpi_prop c hinst H1 H2 bv a _ fs' l' p'' st'' hb
  obtain ⟨hm, hr⟩ := exFold_replay _ hB vs rext fs l p' st' h
  refine ⟨hm, ?_⟩
  intro g lg hg
  simp only [loopCuda, hvs, ok_bind]
  exact hr g lg hg

/-- `loopBoost` respects monotonicity and replay. -/
theorem loopBoost_prop (c : LoopCtx) (hinst : InstProp c.inst)
    (H1 : ∀ r fs, fs ⊆ c.w.shellFx r fs)
    (H2 : ∀ r fs, c.w.buildOk r = true → r.prefixPath ∈ c.w.shellFx r fs) :
    ∀ (rext : PyDict AxisVal) (fs : List String) (l : List ShellRun)
      (p' : PyDict AxisVal) (st' : St),
      loopBoost c (rext, ⟨fs, l⟩) = .ok (p', st') →
      fs ⊆ st'.fs ∧ ∀ g lg, st'.fs ⊆ g →
        loopBoost c (rext, ⟨g, lg⟩) = .ok (p', ⟨g, lg⟩) := by
  intro rext fs l p' st' h
  simp only [loopBoost] at h
  cases hvs : c.av.boost.idx1 with
  | error e => rw [hvs] at h; exact Except.noConfusion h
  | ok vs =>
  rw [hvs, ok_bind] at h
  have hB : FoldProp (fun (acc : PyDict AxisVal × St) bv =>
      loopCuda c bv
        ((if c.av.boost.truthy0 then dset acc.1 "boost" (.pv c.av.boost.pkg0 [bv])
          else acc.1), acc.2)) := by
    intro p fs' l' a p'' st'' hb
    exact loopCuda_prop c hinst H1 H2 a _ fs' l' p'' st'' hb
  obtain ⟨hm, hr⟩ := exFold_replay _ hB vs rext fs l p' st' h
  refine ⟨hm, ?_⟩
  intro g lg hg
  simp only [loopBoost, hvs, ok_bind]
  exact hr g lg hg

/-- `install_version` respects monotonicity and replay, for every fuel. -/
theorem install_version_prop (w : World) (cat : Catalog) (pp : String)
    (H1 : ∀ r fs, fs ⊆ w.shellFx r fs)
    (H2 : ∀ r fs, w.buildOk r = true → r.prefixPath ∈ w.shellFx r fs) :
    ∀ fuel, InstProp (install_version w cat pp fuel) := by
  intro fuel
  induction fuel with
  | zero =>
      intro p bp arch md ver env ext fs l st' h
      simp only [install_version] at h
      exact Except.noConfusion h
  | succ fuel ih =>
      intro self bp arch md ver env ext fs l st' h
      simp only [install_version] at h
      cases hve : versionEntry self ver with
      | error e => rw [hve] at h; exact Except.noConfusion h
      | ok ve =>
      rw [hve, ok_bind] at h
      cases hfold : exFold
          (fun (acc : (AVars × PyDict AxisVal) × St) deps => do
            let s ← scanDeps ext acc.1.1 acc.1.2 deps
            let c : LoopCtx :=
              ⟨w, pp, install_version w cat pp fuel, self, bp, arch,
                ve.1, ve.2, env, dset env "PACKAGE_VERSION" ve.1, s.1, s.2.2⟩
            let r ← loopBoost c (s.2.1, acc.2)
            pure ((s.1, r.1), r.2))
          ((initAVars, ([] : PyDict AxisVal)),
            St.mk (addPath fs (pjoin (pjoin (pjoin pp "source") self.name) ve.1)) l)
          (resolve_dependencies cat self) with
      | error e => rw [hfold] at h; exact Except.noConfusion h
      | ok res =>
      rw [hfold, ok_bind] at h
      obtain ⟨pres, stres⟩ := res
      have h' : Except.ok stres = Except.ok st' := h
      injection h' with h'
      subst h'
      have hB : FoldProp (fun (acc : (AVars × PyDict AxisVal) × St) deps => do
          let s ← scanDeps ext acc.1.1 acc.1.2 deps
          let c : LoopCtx :=
            ⟨w, pp, install_version w cat pp fuel, self, bp, arch,
              ve.1, ve.2, env, dset env "PACKAGE_VERSION" ve.1, s.1, s.2.2⟩
          let r ← loopBoost c (s.2.1, acc.2)
          pure ((s.1, r.1), r.2)) := by
        intro p fs' l' deps p'' st'' hb
        obtain ⟨pav, prext⟩ := p
        dsimp only at hb
        cases hs : scanDeps ext pav prext deps with
        | error e => rw [hs] at hb; exact Except.noConfusion hb
        | ok s =>
        rw [hs, ok_bind] at hb
        obtain ⟨sav, srext, sbd⟩ := s
        cases hlb : loopBoost
            ⟨w, pp, install_version w cat pp fuel, self, bp, arch,
              ve.1, ve.2, env, dset env "PACKAGE_VERSION" ve.1, sav, sbd⟩
            (srext, ⟨fs', l'⟩) with
        | error e => rw [hlb] at hb; exact Except.noConfusion hb
        | ok r =>
        rw [hlb, ok_bind] at hb
        obtain ⟨rr, rst⟩ := r
        have hb' : Except.ok ((sav, rr), rst) = Except.ok (p'', st'') := hb
        injection hb' with hb'
        obtain ⟨hb1, hb2⟩ := Prod.mk.inj hb'
        subst hb1
        subst hb2
        obtain ⟨hm, hr⟩ := loopBoost_prop
          ⟨w, pp, install_version w cat pp fuel, self, bp, arch,
            ve.1, ve.2, env, dset env "PACKAGE_VERSION" ve.1, sav, sbd⟩
          ih H1 H2 srext fs' l' rr rst hlb
        refine ⟨hm, ?_⟩
        intro g lg hg
        dsimp only
        simp only [hs, ok_bind, hr g lg hg]
        rfl
      obtain ⟨hm, hr⟩ := exFold_replay _ hB (resolve_dependencies cat self)
        (initAVars, ([] : PyDict AxisVal))
        (addPath fs (pjoin (pjoin (pjoin pp "source") self.name) ve.1)) l pres stres hfold
      refine ⟨(addPath_subset fs _).trans hm, ?_⟩
      intro g lg hg
      have hsp : pjoin (pjoin (pjoin pp "source") self.name) ve.1 ∈ g :=
        hg (hm (addPath_mem fs _))
      simp only [install_version, hve, ok_bind]
      rw [show ({ St.mk g lg with
            fs := addPath (St.mk g lg).fs (pjoin (pjoin (pjoin pp "source") self.name) ve.1) } : St) =
          St.mk g lg from by simp [addPath_of_mem hsp]]
      rw [hr g lg hg, ok_bind]
      rfl

/-- Claim C1: installation is idempotent on the installation key.  First,
a product point whose computed prefix already exists is skipped with no
state change and no build-shell invocation.  Second, under the modelling
hypotheses that a successful build shell creates its `PACKAGE_PREFIX` and
deletes nothing, a second `install_version` call with identical arguments
starting from the filesystem a successful first call produced changes
nothing and performs zero builds (its log gains no entry), whatever log it
starts with. -/
theorem C1_install_idempotent (w : World) (cat : Catalog) (pp : String)
    (H1 : ∀ r fs, fs ⊆ w.shellFx r fs)
    (H2 : ∀ r fs, w.buildOk r = true → r.prefixPath ∈ w.shellFx r fs) :
    (∀ (c : LoopCtx) (bv cv mv pyv cov : String) (rext : PyDict AxisVal)
        (fs : List String) (l : List ShellRun) (pfx : String),
        c.self.prefix_path c.basepath c.arch c.ver0 rext = .ok pfx → pfx ∈ fs →
        pointBody c bv cv mv pyv cov rext ⟨fs, l⟩ = .ok (rext, ⟨fs, l⟩)) ∧
    (∀ (fuel : Nat) (self : Pkg) (bp arch md ver : String) (env : PyDict String)
        (ext : Option (PyDict AxisVal)) (fs : List String) (l : List ShellRun)
        (st' : St),
        install_version w cat pp fuel self bp arch md ver env ext ⟨fs, l⟩ = .ok st' →
        ∀ lg, install_version w cat pp fuel self bp arch md ver env ext ⟨st'.fs, lg⟩ =
          .ok ⟨st'.fs, lg⟩) := by
  constructor
  · intro c bv cv mv pyv cov rext fs l pfx hpfx hmem
    simp only [pointBody, hpfx, ok_bind]
    rw [if_pos (show pfx ∈ (St.mk fs l).fs from hmem)]
    rfl
  · intro fuel self bp arch md ver env ext fs l st' h lg
    obtain ⟨-, hr⟩ :=
      install_version_prop w cat pp H1 H2 fuel self bp arch md ver env ext fs l st' h
    exact hr st'.fs lg (List.Subset.refl _)

/-- Witness for C1: the first concrete install performs one build; the
second call from the resulting filesystem is a no-op with an empty log. -/
theorem C1_install_idempotent_witness :
    install_version okWorld catA "/repo/packages" 2 pkgA "/opt/apps" "x86_64"
        "Tools" "1.0" [] none ⟨[], []⟩ = .ok ⟨fsA1, [runA1]⟩ ∧
    install_version okWorld catA "/repo/packages" 2 pkgA "/opt/apps" "x86_64"
        "Tools" "1.0" [] none ⟨fsA1, []⟩ = .ok ⟨fsA1, []⟩ := by
  have h1 : install_version okWorld catA "/repo/packages" 2 pkgA "/opt/apps" "x86_64"
      "Tools" "1.0" [] none ⟨[], []⟩ = .ok ⟨fsA1, [runA1]⟩ := by decide
  refine ⟨h1, ?_⟩
  have h2 := (C1_install_idempotent okWorld catA "/repo/packages"
      (fun r fs => List.subset_cons_self r.prefixPath fs)
      (fun r fs _ => List.mem_cons_self r.prefixPath fs)).2
    2 pkgA "/opt/apps" "x86_64" "Tools" "1.0" [] none [] [] ⟨fsA1, [runA1]⟩ h1 []
  exact h2
